import Mathlib

/-!
Verification of the GoalTracker email-to-goal pipeline.

Shallow embedding of the core modules of the goal-tracker repository:
`store.js` (Goal Store), `aiService.js` (extraction-response validation),
`workflow.js` (workflow orchestrator `runEmailToGoal`), and the small parts
of `utils.js` / `settings.js` they rely on.

Modelling conventions:
* JavaScript strings are Lean `String`s; `str.length` is the character count
  (equal to the JS UTF-16 unit count for all BMP text handled here).
* `Math.round(100 * done / n)` is embedded as the exact rational half-up
  rounding `(200 * done + n) / (2 * n)` in `Nat`; for the list lengths that
  occur (far below 2^53) IEEE double arithmetic computes the same value.
* JS `null` is `Option.none`; a field that can also be `undefined` (distinct
  from `null`) is modelled with a second `Option` layer where the code
  distinguishes the two.
* Generated ids (`generateId`) and the current date (`todayISO`) are
  time/randomness dependent, so the corresponding operations take them as
  explicit arguments.
* I/O collaborators of `runEmailToGoal` (Gmail fetch, profile lookup, the
  LLM call, the send call, the store write) are injected through a
  `WorkflowEnv` record of oracles, and every outbound call is recorded in a
  `CallEvent` trace.
-/

namespace GoalTracker

/-! ## store.js — data model -/

/-- Subtask record: `{id, text, completed}`. -/
structure Subtask where
  id : String
  text : String
  completed : Bool
deriving DecidableEq, Repr

/-- Goal record as kept by `store.js`. `status` is the literal JS string
(normally `"active"` or `"completed"`). -/
structure Goal where
  id : String
  title : String
  category : String
  deadline : Option String
  status : String
  createdAt : String
  progress : Nat
  subtasks : List Subtask
  sourceEmailId : Option String
  sourceLink : Option String
deriving DecidableEq, Repr

/-- AppState: the whole persisted singleton state of `store.js`. -/
structure AppState where
  goals : List Goal
  categories : List String
  currentFilter : String
  filterCategory : String
  sortBy : String
deriving DecidableEq, Repr

/-- `DEFAULT_CATEGORIES` from `store.js`. -/
def DEFAULT_CATEGORIES : List String :=
  ["核心專案", "日常營運", "專業成長", "外部協作", "個人管理"]

/-- `getDefaultState()` from `store.js`. -/
def getDefaultState : AppState :=
  { goals := []
    categories := DEFAULT_CATEGORIES
    currentFilter := "all"
    filterCategory := "all"
    sortBy := "deadline" }

/-- Fuel-driven binary logarithm: `log2F f n` halves `n` until it drops
below 2, counting the steps (at most `f` of them). With fuel `f ≥ n` this is
`⌊log₂ n⌋` for `n ≥ 1`. Written with explicit fuel so the kernel can
evaluate it on concrete inputs. -/
def log2F : Nat → Nat → Nat
  | 0, _ => 0
  | f + 1, n => if 2 ≤ n then log2F f (n / 2) + 1 else 0

/-- `⌊log₂ n⌋` for `n ≥ 1` (and `0` at `0`). -/
def natLog2 (n : Nat) : Nat := log2F n n

/-- Round the nonnegative rational `N / D` to the nearest integer, ties to
even — the IEEE-754 default rounding applied to a scaled significand. -/
def rne2 (N D : Nat) : Nat :=
  if 2 * (N % D) < D then N / D
  else if D < 2 * (N % D) then N / D + 1
  else if N / D % 2 = 0 then N / D else N / D + 1

/-- The JS division `a / b` on exact small-integer operands, as an IEEE-754
binary64 (double) value: the quotient is rounded to 53 significant bits,
nearest-ties-even. The result is the dyadic pair `(m, k)` standing for
`m / 2^k` (for `1 ≤ a ≤ b` the quotient is in `(0, 1]`, so `k ≥ 0`; the
exponent is unbounded below — the subnormal cutoff at `2^(-1022)` is
unreachable for JS array lengths). `k` is chosen so that the exact scaled
quotient `a * 2^k / b` lies in `[2^52, 2^53)`. -/
def fpDiv (a b : Nat) : Nat × Nat :=
  if a = 0 then (0, 0)
  else
    let B := natLog2 b + 1
    let A := natLog2 (a * 2 ^ B / b)
    let k := 52 + B - A
    (rne2 (a * 2 ^ k) b, k)

/-- The JS multiplication `x * 100` on a double `x = m / 2^k`, again rounded
to 53 significant bits, nearest-ties-even: the integer `100 * m` is shifted
down to 53 bits (`s` excess bits) and the exponent adjusted. -/
def fpMul100 (x : Nat × Nat) : Nat × Nat :=
  if x.1 = 0 then (0, 0)
  else
    let M := 100 * x.1
    let s := natLog2 M - 52
    (rne2 M (2 ^ s), x.2 - s)

/-- `Math.round` on a nonnegative double `m / 2^k`: the closest integer,
ties toward `+∞` — exactly `⌊m / 2^k + 1/2⌋`. -/
def roundHalfUp (y : Nat × Nat) : Nat :=
  if y.2 = 0 then y.1 else (y.1 + 2 ^ (y.2 - 1)) / 2 ^ y.2

/-- `calcProgressValue(subtasks)`: `Math.round((done / n) * 100)` computed
as JS does, in binary64 floating point — division and multiplication each
round to 53 significant bits (nearest-ties-even) before `Math.round` picks
the closest integer (ties up). The float result can differ from exact
rational rounding: 23 of 40 gives the double `57.49999999999999`, hence 57,
where exact half-up rounding of `57.5` would give 58. Returns `0` for an
empty list. -/
def calcProgressValue (subtasks : List Subtask) : Nat :=
  if subtasks.length = 0 then 0
  else
    let done := (subtasks.filter (fun s => s.completed)).length
    roundHalfUp (fpMul100 (fpDiv done subtasks.length))

/-- Body of `calculateProgress` applied to the goal it found: recompute
`progress` and derive `status` (auto-complete / auto-revert). -/
def recalcGoal (g : Goal) : Goal :=
  let p := calcProgressValue g.subtasks
  let allDone := g.subtasks.length > 0 && p = 100
  { g with
    progress := p
    status :=
      if allDone then "completed"
      else if g.status = "completed" && p < 100 then "active"
      else g.status }

/-- Update the first element satisfying `p` (JS code mutates the object
returned by `Array.prototype.find`, i.e. the first match). -/
def updateFirst (p : α → Bool) (f : α → α) : List α → List α
  | [] => []
  | x :: xs => if p x then f x :: xs else x :: updateFirst p f xs

/-- `calculateProgress(goalId)` as a state transformer: no-op when the id is
absent, otherwise recompute the first goal with that id. -/
def calculateProgress (s : AppState) (goalId : String) : AppState :=
  match s.goals.find? (fun g => g.id == goalId) with
  | none => s
  | some _ =>
      { s with goals := updateFirst (fun g => g.id == goalId) recalcGoal s.goals }

/-- Input record of `addGoal` (the fields its destructured parameter reads). -/
structure AddGoalData where
  title : String
  category : String
  deadline : Option String
  subtasks : List String
  sourceEmailId : Option String
  sourceLink : Option String
deriving DecidableEq, Repr

/-- `addGoal(goalData)`. `gid` is the generated goal id, `sidOf i` the id
generated for the i-th subtask, `today` the value of `todayISO()`. -/
def addGoalState (s : AppState) (gid : String) (sidOf : Nat → String)
    (today : String) (d : AddGoalData) : AppState × Goal :=
  let goal : Goal :=
    { id := gid
      title := d.title
      category := d.category
      deadline := d.deadline
      status := "active"
      createdAt := today
      progress := 0
      subtasks := d.subtasks.enum.map (fun p => ⟨sidOf p.1, p.2, false⟩)
      sourceEmailId := d.sourceEmailId
      sourceLink := d.sourceLink }
  ({ s with goals := s.goals ++ [goal] }, goal)

/-- One entry of the `updates.subtasks` array accepted by `updateGoal`:
either a plain text (a fresh incomplete subtask is built) or an existing
subtask object (kept as-is). -/
def SubtaskInput := String ⊕ Subtask
deriving DecidableEq

/-- The partial-update record accepted by `updateGoal`. An outer `none`
means the field was not provided (`undefined`). For `deadline` the provided
value may itself be null/empty (`updates.deadline || null`). -/
structure GoalUpdate where
  title : Option String
  category : Option String
  deadline : Option (Option String)
  subtasks : Option (List SubtaskInput)
deriving DecidableEq

/-- Field assignments of `updateGoal` applied to the found goal (before the
optional subtask replacement). -/
def applyGoalUpdate (g : Goal) (u : GoalUpdate) : Goal :=
  let g := match u.title with | some t => { g with title := t } | none => g
  let g := match u.category with | some c => { g with category := c } | none => g
  let g := match u.deadline with
    | some d => { g with deadline := d.bind (fun x => if x = "" then none else some x) }
    | none => g
  g

/-- Subtask-array replacement of `updateGoal`: strings become fresh
incomplete subtasks (with generated ids), objects are kept. -/
def replaceSubtasks (g : Goal) (subs : List SubtaskInput) (sidOf : Nat → String) : Goal :=
  { g with
    subtasks := subs.enum.map (fun p =>
      match p.2 with
      | Sum.inl text => ⟨sidOf p.1, text, false⟩
      | Sum.inr st => st) }

/-- `updateGoal(id, updates)`: no-op when the id is absent; otherwise apply
the provided fields to the first matching goal and, if `subtasks` was
replaced wholesale, run `calculateProgress`. -/
def updateGoalState (s : AppState) (id : String) (u : GoalUpdate)
    (sidOf : Nat → String) : AppState :=
  match s.goals.find? (fun g => g.id == id) with
  | none => s
  | some _ =>
      match u.subtasks with
      | none =>
          { s with goals := updateFirst (fun g => g.id == id) (fun g => applyGoalUpdate g u) s.goals }
      | some subs =>
          let f := fun g => replaceSubtasks (applyGoalUpdate g u) subs sidOf
          let s1 : AppState := { s with goals := updateFirst (fun g => g.id == id) f s.goals }
          calculateProgress s1 id

/-- `deleteGoal(id)`: removes every goal with that id; idempotent. -/
def deleteGoalState (s : AppState) (id : String) : AppState :=
  { s with goals := s.goals.filter (fun g => g.id != id) }

/-- `toggleGoalStatus(id)`: flip between `"completed"` and `"active"` on the
first matching goal; no-op when absent. -/
def toggleGoalStatusState (s : AppState) (id : String) : AppState :=
  match s.goals.find? (fun g => g.id == id) with
  | none => s
  | some _ =>
      let f := fun g => { g with status := if g.status = "completed" then "active" else "completed" }
      { s with goals := updateFirst (fun g => g.id == id) f s.goals }

/-- `toggleSubtask(goalId, subtaskId)`: toggle the first matching subtask of
the first matching goal, then `calculateProgress`; no-op when either id is
absent. -/
def toggleSubtaskState (s : AppState) (goalId subtaskId : String) : AppState :=
  match s.goals.find? (fun g => g.id == goalId) with
  | none => s
  | some goal =>
      match goal.subtasks.find? (fun st => st.id == subtaskId) with
      | none => s
      | some _ =>
          let flip := fun st => { st with completed := !st.completed }
          let f := fun g => { g with subtasks := updateFirst (fun st => st.id == subtaskId) flip g.subtasks }
          let s1 : AppState := { s with goals := updateFirst (fun g => g.id == goalId) f s.goals }
          calculateProgress s1 goalId

/-- `setFilter(value)`. -/
def setFilterState (s : AppState) (v : String) : AppState := { s with currentFilter := v }

/-- `setFilterCategory(value)`. -/
def setFilterCategoryState (s : AppState) (v : String) : AppState := { s with filterCategory := v }

/-- `setSortBy(value)`. -/
def setSortByState (s : AppState) (v : String) : AppState := { s with sortBy := v }

/-- `addCategory(name)`: append when not present (only then does the code
commit). -/
def addCategoryState (s : AppState) (name : String) : AppState :=
  if s.categories.contains name then s else { s with categories := s.categories ++ [name] }

/-- One step of `getProcessedEmailIds()`'s loop: `if (goal.sourceEmailId)
ids.add(goal.sourceEmailId)` — the JS truthiness test skips the empty
string just like `null`, and the `Set` keeps one copy per id. -/
def processedStep (ids : List String) (g : Goal) : List String :=
  match g.sourceEmailId with
  | some s => if s ≠ "" && !ids.contains s then ids ++ [s] else ids
  | none => ids

/-- `getProcessedEmailIds()`: the `Set` of truthy `sourceEmailId` values,
modelled as an insertion-ordered duplicate-free list. -/
def processedEmailIds (goals : List Goal) : List String :=
  goals.foldl processedStep []

/-! ## store.js — persistence, migration, import/export -/

/-- A goal record as it sits in persisted storage or in an import payload
(possibly written by an older schema). `progress := none` models a missing
or non-numeric `progress` (the code tests `typeof goal.progress !==
"number"`); for `sourceEmailId` / `sourceLink` the outer `none` is
`undefined` (absent field) and `some none` is an explicit `null`. -/
structure LegacyGoal where
  id : String
  title : String
  category : String
  deadline : Option String
  status : String
  createdAt : String
  progress : Option Nat
  subtasks : List Subtask
  sourceEmailId : Option (Option String)
  sourceLink : Option (Option String)
deriving DecidableEq, Repr

/-- `migrateGoal(goal)`: fill `progress` from the subtasks when it is not a
number, and default `undefined` source fields to `null`. -/
def migrateGoal (lg : LegacyGoal) : Goal :=
  { id := lg.id
    title := lg.title
    category := lg.category
    deadline := lg.deadline
    status := lg.status
    createdAt := lg.createdAt
    progress := lg.progress.getD (calcProgressValue lg.subtasks)
    subtasks := lg.subtasks
    sourceEmailId := lg.sourceEmailId.getD none
    sourceLink := lg.sourceLink.getD none }

/-- A parsed persisted blob / import payload. `goals := none` models a
missing or non-array `goals` field; the other fields are `none` when absent
(then spread over `getDefaultState()` leaves the default). -/
structure StoredState where
  goals : Option (List LegacyGoal)
  categories : Option (List String)
  currentFilter : Option String
  filterCategory : Option String
  sortBy : Option String
deriving DecidableEq, Repr

/-- `JSON.stringify` image of a live goal: every field is present. -/
def exportGoal (g : Goal) : LegacyGoal :=
  { id := g.id
    title := g.title
    category := g.category
    deadline := g.deadline
    status := g.status
    createdAt := g.createdAt
    progress := some g.progress
    subtasks := g.subtasks
    sourceEmailId := some g.sourceEmailId
    sourceLink := some g.sourceLink }

/-- `getExportData()` / `save()`: the serialized snapshot of the whole
state (`JSON.stringify(state)`), modelled as the parsed record it
round-trips to. -/
def exportState (s : AppState) : StoredState :=
  { goals := some (s.goals.map exportGoal)
    categories := some s.categories
    currentFilter := some s.currentFilter
    filterCategory := some s.filterCategory
    sortBy := some s.sortBy }

/-- `loadState()`: parse the persisted blob (`none` = absent blob or a
parse failure), require a goals array, migrate each goal in place, and
spread over the default state — except that the source then overrides
`categories` with a fresh copy of `DEFAULT_CATEGORIES`
(`{ ...getDefaultState(), ...saved, categories: [...DEFAULT_CATEGORIES] }`). -/
def loadState (saved : Option StoredState) : AppState :=
  match saved with
  | none => getDefaultState
  | some st =>
      match st.goals with
      | none => getDefaultState
      | some gs =>
          { goals := gs.map migrateGoal
            categories := DEFAULT_CATEGORIES
            currentFilter := st.currentFilter.getD getDefaultState.currentFilter
            filterCategory := st.filterCategory.getD getDefaultState.filterCategory
            sortBy := st.sortBy.getD getDefaultState.sortBy }

/-- Result record of `importState`. -/
structure ImportResult where
  ok : Bool
  message : String
  count : Nat
deriving DecidableEq, Repr

/-- `validateImportData` + `importState(jsonString, mode)`. The input is the
parsed JSON payload (`none` = `JSON.parse` threw). Validation requires a
goals array whose members all have truthy `id` and `title`; `overwrite`
spreads the payload over the default state, `merge` appends only goals
whose id is not already present (the filter consults the pre-import goal
list only). -/
def importState (s : AppState) (input : Option StoredState) (mode : String) :
    AppState × ImportResult :=
  match input with
  | none => (s, ⟨false, "JSON 解析失敗，請確認檔案格式", 0⟩)
  | some parsed =>
      match parsed.goals with
      | none => (s, ⟨false, "匯入資料格式錯誤：缺少 goals 陣列", 0⟩)
      | some gs =>
          if gs.any (fun g => g.id = "" || g.title = "") then
            (s, ⟨false, "匯入資料格式錯誤：目標缺少 id 或 title", 0⟩)
          else
            let migrated := gs.map migrateGoal
            if mode = "overwrite" then
              let s' : AppState :=
                { goals := migrated
                  categories := parsed.categories.getD getDefaultState.categories
                  currentFilter := parsed.currentFilter.getD getDefaultState.currentFilter
                  filterCategory := parsed.filterCategory.getD getDefaultState.filterCategory
                  sortBy := parsed.sortBy.getD getDefaultState.sortBy }
              (s', ⟨true, "已覆蓋還原 " ++ toString migrated.length ++ " 個目標", migrated.length⟩)
            else
              let existingIds := s.goals.map (fun g => g.id)
              let newGoals := migrated.filter (fun g => !existingIds.contains g.id)
              ({ s with goals := s.goals ++ newGoals },
               ⟨true, "已合併匯入 " ++ toString newGoals.length ++ " 個新目標", newGoals.length⟩)

/-! ### The store together with its persisted copy

`commit()` = `save()` + change notification; `save()` writes
`JSON.stringify(state)` to local storage. `Store.storage` is that single
storage slot (`none` = nothing persisted yet). Each public mutator below
commits exactly where the source does. -/

/-- In-memory state plus the persisted local-storage slot. -/
structure Store where
  state : AppState
  storage : Option StoredState
deriving DecidableEq, Repr

/-- `commit()`: persist the whole current state. -/
def commitS (s : AppState) : Store := ⟨s, some (exportState s)⟩

/-- `addGoal` at the store level (always commits). -/
def addGoalS (st : Store) (gid : String) (sidOf : Nat → String) (today : String)
    (d : AddGoalData) : Store :=
  commitS (addGoalState st.state gid sidOf today d).1

/-- `updateGoal` at the store level: commits only when the goal exists. -/
def updateGoalS (st : Store) (id : String) (u : GoalUpdate) (sidOf : Nat → String) : Store :=
  match st.state.goals.find? (fun g => g.id == id) with
  | none => st
  | some _ => commitS (updateGoalState st.state id u sidOf)

/-- `deleteGoal` at the store level (always commits). -/
def deleteGoalS (st : Store) (id : String) : Store :=
  commitS (deleteGoalState st.state id)

/-- `toggleGoalStatus` at the store level: commits only when found. -/
def toggleGoalStatusS (st : Store) (id : String) : Store :=
  match st.state.goals.find? (fun g => g.id == id) with
  | none => st
  | some _ => commitS (toggleGoalStatusState st.state id)

/-- `toggleSubtask` at the store level: commits only when both ids match. -/
def toggleSubtaskS (st : Store) (goalId subtaskId : String) : Store :=
  match st.state.goals.find? (fun g => g.id == goalId) with
  | none => st
  | some goal =>
      match goal.subtasks.find? (fun t => t.id == subtaskId) with
      | none => st
      | some _ => commitS (toggleSubtaskState st.state goalId subtaskId)

/-- `setFilter` at the store level (always commits). -/
def setFilterS (st : Store) (v : String) : Store := commitS (setFilterState st.state v)

/-- `setFilterCategory` at the store level (always commits). -/
def setFilterCategoryS (st : Store) (v : String) : Store := commitS (setFilterCategoryState st.state v)

/-- `setSortBy` at the store level (always commits). -/
def setSortByS (st : Store) (v : String) : Store := commitS (setSortByState st.state v)

/-- `addCategory` at the store level: commits only when the name is new. -/
def addCategoryS (st : Store) (name : String) : Store :=
  if st.state.categories.contains name then st else commitS (addCategoryState st.state name)

/-- `importState` at the store level: commits only on a successful import. -/
def importStateS (st : Store) (input : Option StoredState) (mode : String) : Store :=
  let r := importState st.state input mode
  if r.2.ok then commitS r.1 else st

/-! ### Reachability of store states

One constructor per public mutating operation of `store.js`.
`StoreStep` covers the CRUD / subtask / filter / category operations;
`StoreStepFull` additionally allows `importState`. -/

/-- One mutating store operation other than `importState`. -/
inductive StoreStep : AppState → AppState → Prop where
  | addGoal (s : AppState) (gid : String) (sidOf : Nat → String) (today : String)
      (d : AddGoalData) : StoreStep s (addGoalState s gid sidOf today d).1
  | updateGoal (s : AppState) (id : String) (u : GoalUpdate) (sidOf : Nat → String) :
      StoreStep s (updateGoalState s id u sidOf)
  | deleteGoal (s : AppState) (id : String) : StoreStep s (deleteGoalState s id)
  | toggleGoalStatus (s : AppState) (id : String) : StoreStep s (toggleGoalStatusState s id)
  | toggleSubtask (s : AppState) (goalId subtaskId : String) :
      StoreStep s (toggleSubtaskState s goalId subtaskId)
  | setFilter (s : AppState) (v : String) : StoreStep s (setFilterState s v)
  | setFilterCategory (s : AppState) (v : String) : StoreStep s (setFilterCategoryState s v)
  | setSortBy (s : AppState) (v : String) : StoreStep s (setSortByState s v)
  | addCategory (s : AppState) (name : String) : StoreStep s (addCategoryState s name)

/-- Any mutating store operation, `importState` included. -/
inductive StoreStepFull : AppState → AppState → Prop where
  | basic {s s' : AppState} : StoreStep s s' → StoreStepFull s s'
  | importStep (s : AppState) (input : Option StoredState) (mode : String) :
      StoreStepFull s (importState s input mode).1

/-- States reachable from the default state without `importState`. -/
inductive Reachable : AppState → Prop where
  | init : Reachable getDefaultState
  | step {s s' : AppState} : Reachable s → StoreStep s s' → Reachable s'

/-- States reachable from the default state by any mutating operation. -/
inductive ReachableFull : AppState → Prop where
  | init : ReachableFull getDefaultState
  | step {s s' : AppState} : ReachableFull s → StoreStepFull s s' → ReachableFull s'

/-! ## JSON values and small JS semantics helpers -/

/-- A parsed JSON value (`JSON.parse` output). Numbers are restricted to
integers, which covers every numeric value these modules produce or
inspect. Object keys are assumed distinct (as `JSON.parse` guarantees). -/
inductive JsonValue where
  | null : JsonValue
  | bool (b : Bool) : JsonValue
  | num (n : Int) : JsonValue
  | str (s : String) : JsonValue
  | arr (elems : List JsonValue) : JsonValue
  | obj (fields : List (String × JsonValue)) : JsonValue

/-- JS truthiness of a JSON value. -/
def jsTruthy : JsonValue → Bool
  | .null => false
  | .bool b => b
  | .num n => n != 0
  | .str s => s != ""
  | .arr _ => true
  | .obj _ => true

/-- JS property access `v.f`: `undefined` (`none`) on a missing key or a
non-object primitive, a `TypeError` on `null`. -/
def jsField (v : JsonValue) (f : String) : Except String (Option JsonValue) :=
  match v with
  | .null => .error ("TypeError: Cannot read properties of null (reading '" ++ f ++ "')")
  | .obj fields => .ok ((fields.find? (fun p => p.1 == f)).map (fun p => p.2))
  | _ => .ok none

/-- Does the character list start with the given one? -/
def startsWithList : List Char → List Char → Bool
  | _, [] => true
  | [], _ :: _ => false
  | c :: cs, p :: ps => c == p && startsWithList cs ps

/-- Substring test on character lists (used for `String.prototype.includes`). -/
def containsList : List Char → List Char → Bool
  | [], pat => pat.isEmpty
  | c :: cs, pat => startsWithList (c :: cs) pat || containsList cs pat

/-- `haystack.includes(needle)`. -/
def jsIncludes (haystack needle : String) : Bool :=
  containsList haystack.toList needle.toList

/-- `s.slice(0, n)`: the first `n` characters. -/
def jsSlice (s : String) (n : Nat) : String := String.mk (s.data.take n)

/-- `s.trim()`: strip whitespace from both ends. -/
def jsTrim (s : String) : String :=
  String.mk (((s.data.dropWhile Char.isWhitespace).reverse.dropWhile Char.isWhitespace).reverse)

/-- `s.toLowerCase()` (ASCII lowering; all inputs of interest are BMP text
whose JS lowering agrees). -/
def jsToLower (s : String) : String := String.mk (s.data.map Char.toLower)

/-- `s.trim().toLowerCase()`. -/
def jsNormalize (s : String) : String := jsToLower (jsTrim s)

/-! ## aiService.js — extraction-response validation -/

/-- Validation constants of `aiService.js`. -/
def MAX_TITLE_LENGTH : Nat := 60

/-- `MAX_FIELD_LENGTH`. -/
def MAX_FIELD_LENGTH : Nat := 200

/-- `MAX_SUBTASK_LENGTH`. -/
def MAX_SUBTASK_LENGTH : Nat := 100

/-- `MAX_GOALS`. -/
def MAX_GOALS : Nat := 50

/-- `MAX_SUBTASKS_PER_GOAL`. -/
def MAX_SUBTASKS_PER_GOAL : Nat := 10

/-- Days per month in the proleptic Gregorian calendar used by
ECMAScript's date-string interpretation. -/
def daysInMonth (y m : Nat) : Nat :=
  if m = 2 then
    if y % 4 = 0 && (y % 100 != 0 || y % 400 = 0) then 29 else 28
  else if m = 4 || m = 6 || m = 9 || m = 11 then 30
  else 31

/-- Does the string match `/^\d{4}-\d{2}-\d{2}$/`? -/
def matchesYMDPattern (s : String) : Bool :=
  match s.toList with
  | [y1, y2, y3, y4, h1, m1, m2, h2, d1, d2] =>
      y1.isDigit && y2.isDigit && y3.isDigit && y4.isDigit && h1 == '-' &&
      m1.isDigit && m2.isDigit && h2 == '-' && d1.isDigit && d2.isDigit
  | _ => false

/-- `!isNaN(Date.parse(str))` for a string already matching the
`YYYY-MM-DD` pattern: ECMAScript's Date Time String Format rejects
out-of-bounds components, so the parse succeeds exactly for a real
proleptic-Gregorian calendar date. -/
def dateParseValid (s : String) : Bool :=
  match s.toList with
  | [y1, y2, y3, y4, _, m1, m2, _, d1, d2] =>
      let y := ((y1.toNat - 48) * 1000 + (y2.toNat - 48) * 100 + (y3.toNat - 48) * 10 + (y4.toNat - 48))
      let m := (m1.toNat - 48) * 10 + (m2.toNat - 48)
      let d := (d1.toNat - 48) * 10 + (d2.toNat - 48)
      1 ≤ m && m ≤ 12 && 1 ≤ d && d ≤ daysInMonth y m
  | _ => false

/-- `isValidDate(str)` from `aiService.js`:
`/^\d{4}-\d{2}-\d{2}$/.test(str) && !isNaN(Date.parse(str))`. -/
def isValidDate (s : String) : Bool :=
  matchesYMDPattern s && dateParseValid s

/-- One validated goal as produced by `parseAIResponse`. `category` is
`none` when the whitelist is empty and the model value invalid (JS
`VALID_CATEGORIES[0]` is then `undefined`). -/
structure ParsedGoal where
  title : String
  category : Option String
  priority : String
  source_email_id : String
  source_subject : String
  source_from : String
  subtasks : List String
  deadline : Option String
deriving DecidableEq, Repr

/-- `analysis_summary` is passed through verbatim; `goals` is the
validated list. -/
structure AnalysisResult where
  analysis_summary : JsonValue
  goals : List ParsedGoal

/-- `(v || "").slice(0, n)` for the `source_subject` / `source_from`
fields: falsy values collapse to `""`; a truthy string is truncated. A
truthy non-string is rejected as an error (in JS a number/boolean would
throw a `TypeError` here; an array's `slice` would smuggle a non-string
value through — the model conservatively stops at such adversarial
inputs, which only shrinks the domain on which validation succeeds). -/
def jsOrEmptySlice (v : Option JsonValue) (n : Nat) : Except String String :=
  match v with
  | some (.str s) => .ok (jsSlice s n)
  | some w => if jsTruthy w then .error "TypeError: slice is not a function" else .ok ""
  | none => .ok ""

/-- Sequential effectful map (JS `Array.prototype.map` with a callback
that may throw aborts at the first failure). -/
def mapExcept (f : α → Except String β) : List α → Except String (List β)
  | [] => .ok []
  | x :: xs => do
      let y ← f x
      let ys ← mapExcept f xs
      .ok (y :: ys)

/-- The per-goal sanitization performed inside `parseAIResponse`'s `map`
callback, field by field in source order. -/
def validateGoal (cats : List String) (g : JsonValue) : Except String ParsedGoal := do
  let titleF ← jsField g "title"
  let categoryF ← jsField g "category"
  let priorityF ← jsField g "priority"
  let sourceEmailIdF ← jsField g "source_email_id"
  let sourceSubjectF ← jsField g "source_subject"
  let sourceFromF ← jsField g "source_from"
  let subtasksF ← jsField g "subtasks"
  let deadlineF ← jsField g "deadline"
  let source_subject ← jsOrEmptySlice sourceSubjectF MAX_FIELD_LENGTH
  let source_from ← jsOrEmptySlice sourceFromF MAX_FIELD_LENGTH
  .ok
    { title := jsSlice (match titleF with | some (.str s) => s | _ => "") MAX_TITLE_LENGTH
      category :=
        match categoryF with
        | some (.str c) => if cats.contains c then some c else cats.head?
        | _ => cats.head?
      priority :=
        match priorityF with
        | some (.str p) => if ["high", "medium", "low"].contains p then p else "medium"
        | _ => "medium"
      source_email_id := match sourceEmailIdF with | some (.str s) => s | _ => ""
      source_subject := source_subject
      source_from := source_from
      subtasks :=
        match subtasksF with
        | some (.arr l) =>
            ((l.filterMap (fun v => match v with
                | .str s => if s.length > 0 then some s else none
                | _ => none)).take MAX_SUBTASKS_PER_GOAL).map (fun s => jsSlice s MAX_SUBTASK_LENGTH)
        | _ => []
      deadline :=
        match deadlineF with
        | some (.str s) => if isValidDate s then some s else none
        | _ => none }

/-- `parseAIResponse(text, categories)` from the point where the response
text has been fence-stripped and `JSON.parse`d (the claims quantify over
the parsed JSON value): require a truthy `analysis_summary` and a `goals`
array, then cap the list at `MAX_GOALS` and sanitize each entry. -/
def parseAIResponse (parsed : JsonValue) (categories : List String) :
    Except String AnalysisResult := do
  let summaryF ← jsField parsed "analysis_summary"
  let goalsF ← jsField parsed "goals"
  match summaryF, goalsF with
  | some sv, some (.arr gl) =>
      if jsTruthy sv then do
        let goals ← mapExcept (validateGoal categories) (gl.take MAX_GOALS)
        .ok ⟨sv, goals⟩
      else .error "AI 回傳的 JSON 格式不符預期（缺少 analysis_summary 或 goals）"
  | _, _ => .error "AI 回傳的 JSON 格式不符預期（缺少 analysis_summary 或 goals）"

/-! ## workflow.js — the email-to-goal orchestrator -/

/-- Email record assembled by `gmailService.fetchLatestEmails` (`from` and
`to` are Lean keywords, hence `fromAddr` / `toAddr`). -/
structure Email where
  id : String
  fromAddr : String
  toAddr : String
  subject : String
  body : String
  date : String
deriving DecidableEq, Repr

/-- Leftmost match of `/<([^>]+)>/`: the first `<` followed by at least one
non-`>` character and a closing `>`. -/
def angleMatch : List Char → Option String
  | [] => none
  | c :: cs =>
      if c == '<' then
        let content := cs.takeWhile (fun d => d != '>')
        match cs.drop content.length with
        | '>' :: _ => if content.isEmpty then angleMatch cs else some (String.mk content)
        | _ => angleMatch cs
      else angleMatch cs

/-- Delimiters of the fallback pattern `/([^\s,]+@[^\s,]+)/`. -/
def isDelim (c : Char) : Bool := c.isWhitespace || c == ','

/-- Split into maximal delimiter-free runs. -/
def tokensOf (l : List Char) : List (List Char) :=
  (l.foldr (fun c groups =>
    if isDelim c then [] :: groups
    else
      match groups with
      | [] => [[c]]
      | g :: gs => (c :: g) :: gs) []).filter (fun t => !t.isEmpty)

/-- Does the token contain an `@` with at least one character on each side
(so the token as a whole matches `[^\s,]+@[^\s,]+`)? -/
def hasInteriorAtSign : List Char → Bool
  | [] => false
  | _ :: rest => aux rest
where
  aux : List Char → Bool
    | [] => false
    | [_] => false
    | c :: rest => c == '@' || aux rest

/-- `extractEmailAddress(headerValue)`: the `<...>` capture when present,
otherwise the first delimiter-free token containing an interior `@`
(the leftmost match of the fallback regex); `null` for a falsy input or
no match. -/
def extractEmailAddress (headerValue : String) : Option String :=
  if headerValue = "" then none
  else
    match angleMatch headerValue.toList with
    | some s => some s
    | none => ((tokensOf headerValue.toList).find? hasInteriorAtSign).map String.mk

/-- One email block of `formatEmailsForPrompt`. -/
def formatEmail (total : Nat) (i : Nat) (e : Email) : String :=
  "=== Email " ++ toString (i + 1) ++ "/" ++ toString total ++ " ===\n" ++
  "Email-ID: " ++ e.id ++ "\n" ++
  "From: " ++ e.fromAddr ++ "\n" ++
  "To: " ++ e.toAddr ++ "\n" ++
  "Subject: " ++ e.subject ++ "\n" ++
  "Date: " ++ e.date ++ "\n" ++
  "---\n" ++
  e.body

/-- `formatEmailsForPrompt(emails)`. -/
def formatEmailsForPrompt (emails : List Email) : String :=
  String.intercalate "\n\n" (emails.enum.map (fun p => formatEmail emails.length p.1 p.2))

/-- `generateGmailLink(messageId)`. -/
def generateGmailLink (messageId : String) : String :=
  "https://mail.google.com/mail/u/0/#inbox/" ++ messageId

/-- JS `Map.prototype.set`: replace in place when the key exists (keeping
its original position), append otherwise. -/
def jsMapSet (m : List (String × α)) (k : String) (v : α) : List (String × α) :=
  if m.any (fun p => p.1 == k) then m.map (fun p => if p.1 == k then (k, v) else p)
  else m ++ [(k, v)]

/-- JS `Map.prototype.get` (keys are unique by construction). -/
def jsMapGet (m : List (String × α)) (k : String) : Option α :=
  (m.find? (fun p => p.1 == k)).map (fun p => p.2)

/-- `buildEmailSubjectIndex(emails)`: normalized subject → email, skipping
falsy subjects; insertion order is the email order. -/
def buildEmailSubjectIndex (emails : List Email) : List (String × Email) :=
  emails.foldl (fun idx e => if e.subject ≠ "" then jsMapSet idx (jsNormalize e.subject) e else idx) []

/-- Fuzzy phase of `matchGoalToEmail`: walk the index in insertion order;
skip subjects shorter than 4 or pairs with length ratio below 0.5
(`shorter / longer < 0.5` is exactly `2 * shorter < longer` for string
lengths far below 2^53); return the first entry with containment in
either direction. -/
def fuzzyScan (needle : String) : List (String × Email) → Option Email
  | [] => none
  | (subject, email) :: rest =>
      if subject.length < 4 then fuzzyScan needle rest
      else
        let shorter := min needle.length subject.length
        let longer := max needle.length subject.length
        if 2 * shorter < longer then fuzzyScan needle rest
        else if jsIncludes subject needle || jsIncludes needle subject then some email
        else fuzzyScan needle rest

/-- `matchGoalToEmail(parsedGoal, subjectIndex)`: exact normalized lookup
first, then the guarded fuzzy scan (only when the needle has at least 4
characters). -/
def matchGoalToEmail (parsedGoal : ParsedGoal) (subjectIndex : List (String × Email)) :
    Option Email :=
  if parsedGoal.source_subject = "" then none
  else
    let needle := jsNormalize parsedGoal.source_subject
    match subjectIndex.find? (fun p => p.1 == needle) with
    | some p => some p.2
    | none => if needle.length < 4 then none else fuzzyScan needle subjectIndex

/-- `sendEmail`'s structured result. -/
structure SendResult where
  ok : Bool
  message : String
deriving DecidableEq, Repr

/-- The environment of one `runEmailToGoal` run: configuration read through
`settings.js` plus oracles for every I/O collaborator. `addGoalResult`
models the outcome of the guarded `store.addGoal` call (`.ok` carries the
generated goal id, `.error` a thrown message). -/
structure WorkflowEnv where
  googleClientId : String
  aiApiKey : String
  accessToken : Option String
  storedGoals : List Goal
  categories : List String
  fetchResult : Except String (List Email)
  profileResult : Option String
  analyzeResult : String → String → List String → Except String AnalysisResult
  sendResult : Except String SendResult
  addGoalResult : AddGoalData → Except String String

/-- One outbound call performed by the orchestrator. The `send` event marks
the notification attempt (summary building + `sendEmail`). -/
inductive CallEvent where
  | fetch (maxResults : Nat) : CallEvent
  | profile : CallEvent
  | analyze (emailBodies userEmail : String) (categories : List String) : CallEvent
  | write (input : AddGoalData) : CallEvent
  | send (recipient : String) : CallEvent
deriving DecidableEq, Repr

/-- Is the event an extraction-service invocation? -/
def CallEvent.isAnalyze : CallEvent → Bool
  | .analyze _ _ _ => true
  | _ => false

/-- Per-goal result record pushed by the write loop. -/
structure GoalResult where
  success : Bool
  goalId : Option String
  title : String
  category : Option String
  priority : String
  source_subject : String
  error : Option String
deriving DecidableEq, Repr

/-- The structured result of one workflow run. -/
structure WorkflowResult where
  ok : Bool
  message : String
  results : List GoalResult
  analysisSummary : Option JsonValue

/-- `checkCredentials()`: the names of the unset credentials, in source
order. -/
def missingCredentials (env : WorkflowEnv) : List String :=
  (if env.googleClientId = "" then ["Google Client ID"] else []) ++
  (if env.aiApiKey = "" then ["AI API Key"] else [])

/-- User-address resolution: profile lookup first, then the first address
extractable from a candidate email's `To` header. -/
def resolveUserEmail (env : WorkflowEnv) (newEmails : List Email) : Option String :=
  match env.profileResult with
  | some e => some e
  | none => newEmails.findSome? (fun e => extractEmailAddress e.toAddr)

/-- `userEmail || "（未知使用者）"`. -/
def userDisplay : Option String → String
  | some s => if s = "" then "（未知使用者）" else s
  | none => "（未知使用者）"

/-- Dedup filter of step 2.5: drop emails whose id is already processed. -/
def newEmailsOf (env : WorkflowEnv) (emails : List Email) : List Email :=
  emails.filter (fun e => !(processedEmailIds env.storedGoals).contains e.id)

/-- The `addGoal` argument assembled for one extracted goal (step 4):
resolve the source email by id when the model supplied a known one,
otherwise by subject matching; attach id and deep link of the match. -/
def goalWriteInput (subjectIndex : List (String × Email))
    (emailIdMap : List (String × Email)) (pg : ParsedGoal) : AddGoalData :=
  let matchedEmail :=
    if pg.source_email_id ≠ "" && (jsMapGet emailIdMap pg.source_email_id).isSome then
      jsMapGet emailIdMap pg.source_email_id
    else matchGoalToEmail pg subjectIndex
  { title := pg.title
    category := match pg.category with
      | some c => if c = "" then "學習" else c
      | none => "學習"
    deadline := pg.deadline
    subtasks := pg.subtasks
    sourceEmailId := matchedEmail.map (fun e => e.id)
    sourceLink := matchedEmail.map (fun e => generateGmailLink e.id) }

/-- One iteration of the write loop (step 4): attempt the store write and
record a per-goal success or failure. -/
def processGoal (env : WorkflowEnv) (subjectIndex : List (String × Email))
    (emailIdMap : List (String × Email)) (pg : ParsedGoal) : GoalResult × CallEvent :=
  let input := goalWriteInput subjectIndex emailIdMap pg
  match env.addGoalResult input with
  | .ok gid =>
      ({ success := true, goalId := some gid, title := pg.title, category := pg.category,
         priority := pg.priority, source_subject := pg.source_subject, error := none },
       CallEvent.write input)
  | .error e =>
      ({ success := false, goalId := none, title := pg.title, category := pg.category,
         priority := pg.priority, source_subject := pg.source_subject, error := some e },
       CallEvent.write input)

/-- Step 5: attempt the summary notification when a truthy user address and
access token are available; a falsy address yields the skip warning; a
missing token yields no warning at all. -/
def sendStage (env : WorkflowEnv) (userEmail : Option String) : String × List CallEvent :=
  let userTruthy := match userEmail with | some u => u ≠ "" | none => false
  let tokenTruthy := match env.accessToken with | some t => t ≠ "" | none => false
  if userTruthy && tokenTruthy then
    let u := match userEmail with | some u => u | none => ""
    match env.sendResult with
    | .ok r => (if r.ok then "" else r.message, [CallEvent.send u])
    | .error e => (e, [CallEvent.send u])
  else if !userTruthy then ("無法取得使用者 email，跳過摘要郵件發送", [])
  else ("", [])

/-- Template-literal display of a JSON value (`${x}`). -/
def jsToDisplay : JsonValue → String
  | .null => "null"
  | .bool b => cond b "true" "false"
  | .num n => toString n
  | .str s => s
  | .arr l => String.intercalate "," (jsDisplayElems l)
  | .obj _ => "[object Object]"
where
  jsDisplayElems : List JsonValue → List String
    | [] => []
    | .null :: rest => "" :: jsDisplayElems rest
    | v :: rest => jsToDisplay v :: jsDisplayElems rest

/-- `${summary.field}` for the run-summary message. A `null` summary would
throw in JS before any message is composed; the theorems below therefore
assume a non-null summary. -/
def jsDisplayField (v : JsonValue) (f : String) : String :=
  match v with
  | .obj fields =>
      match fields.find? (fun p => p.1 == f) with
      | some p => jsToDisplay p.2
      | none => "undefined"
  | _ => "undefined"

/-- Step 6: the final human-readable summary message. -/
def composeMessage (summary : JsonValue) (results : List GoalResult)
    (skippedCount : Nat) (sendWarning : String) : String :=
  let successCount := (results.filter (fun r => r.success)).length
  let failCount := results.length - successCount
  "分析 " ++ jsDisplayField summary "total_emails" ++ " 封信件：" ++
    jsDisplayField summary "filtered_in" ++ " 封需行動、" ++
    jsDisplayField summary "filtered_out" ++ " 封已排除" ++
  (if successCount > 0 then "，已建立 " ++ toString successCount ++ " 個目標" else "") ++
  (if failCount > 0 then "，" ++ toString failCount ++ " 個目標寫入失敗" else "") ++
  (if skippedCount > 0 then "（另有 " ++ toString skippedCount ++ " 封已處理過，已跳過）" else "") ++
  (if sendWarning ≠ "" then "（郵件通知失敗：" ++ sendWarning ++ "）" else "")

/-- `new Map(newEmails.map((e) => [e.id, e]))`. -/
def emailIdMapOf (emails : List Email) : List (String × Email) :=
  emails.foldl (fun m e => jsMapSet m e.id e) []

/-- The calls performed up to and including the extraction invocation. -/
def analyzeCallOf (env : WorkflowEnv) (maxEmails : Nat) (newEmails : List Email) :
    List CallEvent :=
  [CallEvent.fetch maxEmails, CallEvent.profile,
   CallEvent.analyze (formatEmailsForPrompt newEmails)
     (userDisplay (resolveUserEmail env newEmails)) env.categories]

/-- Steps 4–6 once the extraction call has succeeded: write loop,
notification attempt, summary composition. -/
def analyzeOkOutcome (env : WorkflowEnv) (maxEmails : Nat) (emails newEmails : List Email)
    (ar : AnalysisResult) : WorkflowResult × List CallEvent :=
  let skippedCount := emails.length - newEmails.length
  let userEmail := resolveUserEmail env newEmails
  let processed := ar.goals.map (processGoal env (buildEmailSubjectIndex newEmails) (emailIdMapOf newEmails))
  let results := processed.map (fun p => p.1)
  let writeEvents := processed.map (fun p => p.2)
  let sendOut := sendStage env userEmail
  let successCount := (results.filter (fun r => r.success)).length
  let failCount := results.length - successCount
  ({ ok := failCount == 0
     message := composeMessage ar.analysis_summary results skippedCount sendOut.1
     results := results
     analysisSummary := some ar.analysis_summary },
   analyzeCallOf env maxEmails newEmails ++ writeEvents ++ sendOut.2)

/-- Steps 2–6 of `runEmailToGoal`, after a successful fetch. -/
def runWithEmails (env : WorkflowEnv) (maxEmails : Nat) (emails : List Email) :
    WorkflowResult × List CallEvent :=
  if emails.length = 0 then
    ({ ok := true, message := "過去 24 小時內沒有可處理的信件", results := [], analysisSummary := none },
     [CallEvent.fetch maxEmails])
  else
    let newEmails := newEmailsOf env emails
    if newEmails.length = 0 then
      ({ ok := true
         message := "過去 24 小時的 " ++ toString emails.length ++ " 封信件皆已處理過，無需重複分析"
         results := []
         analysisSummary := none },
       [CallEvent.fetch maxEmails])
    else
      match env.analyzeResult (formatEmailsForPrompt newEmails)
          (userDisplay (resolveUserEmail env newEmails)) env.categories with
      | .error err =>
          ({ ok := false, message := "AI 分析失敗：" ++ err, results := [], analysisSummary := none },
           analyzeCallOf env maxEmails newEmails)
      | .ok analysisResult => analyzeOkOutcome env maxEmails emails newEmails analysisResult

/-- `runEmailToGoal(maxEmails)`: credential check, fetch, then steps 2–6.
Returns the workflow result together with the trace of outbound calls. -/
def runEmailToGoal (env : WorkflowEnv) (maxEmails : Nat) : WorkflowResult × List CallEvent :=
  let missing := missingCredentials env
  if !missing.isEmpty then
    ({ ok := false
       message := "請先至設定頁面填寫：" ++ String.intercalate "、" missing
       results := []
       analysisSummary := none },
     [])
  else
    match env.fetchResult with
    | .error err =>
        ({ ok := false, message := "讀取 Gmail 信件失敗：" ++ err, results := [], analysisSummary := none },
         [CallEvent.fetch maxEmails])
    | .ok emails => runWithEmails env maxEmails emails

/-! ## Helper lemmas -/

theorem except_bind_ok {ε α β : Type} {x : Except ε α} {f : α → Except ε β} {b : β}
    (h : x >>= f = .ok b) : ∃ a, x = .ok a ∧ f a = .ok b := by
  cases x with
  | error e => exact absurd h (by simp [Bind.bind, Except.bind])
  | ok a => exact ⟨a, rfl, h⟩

theorem mapExcept_ok_length {α β : Type} {f : α → Except String β} {l : List α} {ys : List β}
    (h : mapExcept f l = .ok ys) : ys.length = l.length := by
  induction l generalizing ys with
  | nil =>
      simp only [mapExcept] at h
      cases h
      rfl
  | cons x xs ih =>
      simp only [mapExcept] at h
      obtain ⟨y, _, h⟩ := except_bind_ok h
      obtain ⟨ys', hys', h⟩ := except_bind_ok h
      cases h
      simp [ih hys']

theorem mapExcept_ok_mem {α β : Type} {f : α → Except String β} {l : List α} {ys : List β}
    (h : mapExcept f l = .ok ys) {y : β} (hy : y ∈ ys) : ∃ x ∈ l, f x = .ok y := by
  induction l generalizing ys with
  | nil =>
      simp only [mapExcept] at h
      cases h
      simp at hy
  | cons x xs ih =>
      simp only [mapExcept] at h
      obtain ⟨z, hz, h⟩ := except_bind_ok h
      obtain ⟨ys', hys', h⟩ := except_bind_ok h
      cases h
      rcases List.mem_cons.mp hy with h1 | h1
      · exact ⟨x, List.mem_cons_self x xs, h1 ▸ hz⟩
      · obtain ⟨x', hx', hfx'⟩ := ih hys' h1
        exact ⟨x', List.mem_cons_of_mem x hx', hfx'⟩

theorem jsSlice_length_le (s : String) (n : Nat) : (jsSlice s n).length ≤ n := by
  show (s.data.take n).length ≤ n
  simp [List.length_take]

theorem filter_length_eq_iff {α : Type} {p : α → Bool} {l : List α} :
    (l.filter p).length = l.length ↔ ∀ a ∈ l, p a := by
  induction l with
  | nil => simp
  | cons x xs ih =>
      by_cases hx : p x
      · simp [hx, ih]
      · simp only [List.filter_cons, hx, if_false, Bool.false_eq_true, List.length_cons]
        constructor
        · intro h
          have := List.length_filter_le p xs
          omega
        · intro h
          exact absurd (h x (List.mem_cons_self x xs)) (by simp [hx])

/-- Everything `validateGoal` lets through obeys the claimed field bounds. -/
theorem validateGoal_ok_bounds {cats : List String} {g : JsonValue} {pg : ParsedGoal}
    (h : validateGoal cats g = .ok pg) :
    pg.title.length ≤ MAX_TITLE_LENGTH ∧
    (cats ≠ [] → ∃ c, pg.category = some c ∧ c ∈ cats) ∧
    pg.priority ∈ ["high", "medium", "low"] ∧
    pg.subtasks.length ≤ MAX_SUBTASKS_PER_GOAL ∧
    (∀ st ∈ pg.subtasks, st.length ≤ MAX_SUBTASK_LENGTH) ∧
    (pg.deadline = none ∨ ∃ d, pg.deadline = some d ∧ isValidDate d = true) := by
  simp only [validateGoal] at h
  obtain ⟨titleF, _, h⟩ := except_bind_ok h
  obtain ⟨categoryF, _, h⟩ := except_bind_ok h
  obtain ⟨priorityF, _, h⟩ := except_bind_ok h
  obtain ⟨sourceEmailIdF, _, h⟩ := except_bind_ok h
  obtain ⟨sourceSubjectF, _, h⟩ := except_bind_ok h
  obtain ⟨sourceFromF, _, h⟩ := except_bind_ok h
  obtain ⟨subtasksF, _, h⟩ := except_bind_ok h
  obtain ⟨deadlineF, _, h⟩ := except_bind_ok h
  obtain ⟨ss, _, h⟩ := except_bind_ok h
  obtain ⟨sf, _, h⟩ := except_bind_ok h
  cases h
  refine ⟨jsSlice_length_le _ _, ?_, ?_, ?_, ?_, ?_⟩
  · intro hne
    have hhead : ∃ c, cats.head? = some c ∧ c ∈ cats := by
      cases cats with
      | nil => exact absurd rfl hne
      | cons a l => exact ⟨a, rfl, List.mem_cons_self a l⟩
    obtain ⟨ch, hch, hchm⟩ := hhead
    rcases categoryF with - | v
    · exact ⟨ch, hch, hchm⟩
    · cases v with
      | str c =>
          show ∃ x, (if cats.contains c = true then some c else cats.head?) = some x ∧ x ∈ cats
          cases hc : cats.contains c with
          | true => exact ⟨c, rfl, List.elem_iff.mp hc⟩
          | false => exact ⟨ch, hch, hchm⟩
      | null => exact ⟨ch, hch, hchm⟩
      | bool b => exact ⟨ch, hch, hchm⟩
      | num n => exact ⟨ch, hch, hchm⟩
      | arr l => exact ⟨ch, hch, hchm⟩
      | obj l => exact ⟨ch, hch, hchm⟩
  · rcases priorityF with - | v
    · simp
    · cases v with
      | str p =>
          show (if (["high", "medium", "low"] : List String).contains p = true then p else "medium") ∈
            (["high", "medium", "low"] : List String)
          cases hp : (["high", "medium", "low"] : List String).contains p with
          | true => exact List.elem_iff.mp hp
          | false => simp
      | null => simp
      | bool b => simp
      | num n => simp
      | arr l => simp
      | obj l => simp
  · rcases subtasksF with - | v
    · simp
    · cases v with
      | arr l =>
          simp only [List.length_map, List.length_take]
          exact min_le_left _ _
      | null => simp
      | bool b => simp
      | num n => simp
      | str s => simp
      | obj l => simp
  · rcases subtasksF with - | v
    · simp
    · cases v with
      | arr l =>
          intro st hst
          simp only [List.mem_map] at hst
          obtain ⟨s, _, rfl⟩ := hst
          exact jsSlice_length_le _ _
      | null => simp
      | bool b => simp
      | num n => simp
      | str s => simp
      | obj l => simp
  · rcases deadlineF with - | v
    · exact Or.inl rfl
    · cases v with
      | str s =>
          show (if isValidDate s = true then some s else none) = none ∨
            ∃ d, (if isValidDate s = true then some s else none) = some d ∧ isValidDate d = true
          cases hd : isValidDate s with
          | true => exact Or.inr ⟨s, rfl, hd⟩
          | false => exact Or.inl rfl
      | null => exact Or.inl rfl
      | bool b => exact Or.inl rfl
      | num n => exact Or.inl rfl
      | arr l => exact Or.inl rfl
      | obj l => exact Or.inl rfl

/-- Shape of a successful `parseAIResponse`: at most `MAX_GOALS` entries,
each produced by `validateGoal` on the same category whitelist. -/
theorem parseAIResponse_ok {parsed : JsonValue} {cats : List String} {r : AnalysisResult}
    (h : parseAIResponse parsed cats = .ok r) :
    r.goals.length ≤ MAX_GOALS ∧ ∀ pg ∈ r.goals, ∃ g, validateGoal cats g = .ok pg := by
  simp only [parseAIResponse] at h
  obtain ⟨summaryF, _, h⟩ := except_bind_ok h
  obtain ⟨goalsF, _, h⟩ := except_bind_ok h
  split at h
  · split at h
    · obtain ⟨goals, hgoals, h⟩ := except_bind_ok h
      cases h
      constructor
      · rw [mapExcept_ok_length hgoals]
        simp [List.length_take]
      · intro pg hpg
        obtain ⟨g, _, hg⟩ := mapExcept_ok_mem hgoals hpg
        exact ⟨g, hg⟩
    · cases h
  · cases h

/-! ## Claim C1 — extraction-response validation bounds -/

/-- C1: for every model response JSON, `parseAIResponse` produces only goals
whose category is in the caller-supplied whitelist (falling back to the
first entry when invalid), whose priority is in `{high, medium, low}`
(defaulting to `medium`), whose title has at most 60 characters, whose
subtask list has at most 10 items of at most 100 characters each, and whose
deadline is either null or a string matching the strict `YYYY-MM-DD`
pattern that parses to a real calendar date; at most 50 goals in total. -/
theorem claim_C1_extraction_validation (parsed : JsonValue) (cats : List String)
    (r : AnalysisResult) (hcats : cats ≠ []) (h : parseAIResponse parsed cats = .ok r) :
    r.goals.length ≤ 50 ∧
    ∀ pg ∈ r.goals,
      (∃ c, pg.category = some c ∧ c ∈ cats) ∧
      pg.priority ∈ ["high", "medium", "low"] ∧
      pg.title.length ≤ 60 ∧
      pg.subtasks.length ≤ 10 ∧
      (∀ st ∈ pg.subtasks, st.length ≤ 100) ∧
      (pg.deadline = none ∨
        ∃ d, pg.deadline = some d ∧ matchesYMDPattern d = true ∧ dateParseValid d = true) := by
  obtain ⟨hlen, hval⟩ := parseAIResponse_ok h
  refine ⟨hlen, ?_⟩
  intro pg hpg
  obtain ⟨g, hg⟩ := hval pg hpg
  obtain ⟨ht, hc, hp, hs, hsl, hd⟩ := validateGoal_ok_bounds hg
  refine ⟨hc hcats, hp, ht, hs, hsl, ?_⟩
  rcases hd with hd | ⟨d, hd1, hd2⟩
  · exact Or.inl hd
  · have := (Bool.and_eq_true _ _).mp hd2
    exact Or.inr ⟨d, hd1, this.1, this.2⟩

/-- A concrete adversarial model response for the C1 witness: bad category,
bad priority, relative deadline. -/
def c1SampleResponse : JsonValue :=
  .obj [("analysis_summary", .num 1),
        ("goals", .arr [.obj [("title", .str "完成季度報告"),
                              ("category", .str "不存在的分類"),
                              ("priority", .str "urgent"),
                              ("deadline", .str "next week")]])]

/-- The validated output of `c1SampleResponse`. -/
def c1SampleResult : AnalysisResult :=
  ⟨.num 1, [{ title := "完成季度報告", category := some "工作", priority := "medium",
              source_email_id := "", source_subject := "", source_from := "",
              subtasks := [], deadline := none }]⟩

/-- C1 witness: the validation theorem applied to a concrete adversarial
response with a non-empty whitelist. -/
theorem claim_C1_extraction_validation_witness :
    (["工作", "學習"] : List String) ≠ [] ∧
    parseAIResponse c1SampleResponse ["工作", "學習"] = .ok c1SampleResult ∧
    (c1SampleResult.goals.length ≤ 50 ∧
      ∀ pg ∈ c1SampleResult.goals,
        (∃ c, pg.category = some c ∧ c ∈ (["工作", "學習"] : List String)) ∧
        pg.priority ∈ ["high", "medium", "low"] ∧
        pg.title.length ≤ 60 ∧
        pg.subtasks.length ≤ 10 ∧
        (∀ st ∈ pg.subtasks, st.length ≤ 100) ∧
        (pg.deadline = none ∨
          ∃ d, pg.deadline = some d ∧ matchesYMDPattern d = true ∧ dateParseValid d = true)) :=
  ⟨by decide, rfl,
   claim_C1_extraction_validation c1SampleResponse ["工作", "學習"] c1SampleResult (by decide) rfl⟩

/-! ## Claim C4 — subject matching -/

/-- Any hit of the fuzzy scan lies in the index and satisfies the length
and ratio gates with containment in one direction. -/
theorem fuzzyScan_ok {needle : String} {idx : List (String × Email)} {e : Email}
    (h : fuzzyScan needle idx = some e) :
    ∃ p ∈ idx, p.2 = e ∧ 4 ≤ p.1.length ∧
      max needle.length p.1.length ≤ 2 * min needle.length p.1.length ∧
      (jsIncludes p.1 needle = true ∨ jsIncludes needle p.1 = true) := by
  induction idx with
  | nil => simp [fuzzyScan] at h
  | cons hd rest ih =>
      obtain ⟨subject, email⟩ := hd
      simp only [fuzzyScan] at h
      by_cases h1 : subject.length < 4
      · simp only [h1, if_true] at h
        obtain ⟨p, hp, hrest⟩ := ih h
        exact ⟨p, List.mem_cons_of_mem _ hp, hrest⟩
      · simp only [h1, if_false] at h
        by_cases h2 : 2 * min needle.length subject.length < max needle.length subject.length
        · simp only [h2, if_true] at h
          obtain ⟨p, hp, hrest⟩ := ih h
          exact ⟨p, List.mem_cons_of_mem _ hp, hrest⟩
        · simp only [h2, if_false] at h
          by_cases h3 : (jsIncludes subject needle || jsIncludes needle subject) = true
          · simp only [h3, if_true, Option.some.injEq] at h
            refine ⟨(subject, email), List.mem_cons_self _ _, h,
              (by omega : 4 ≤ subject.length),
              (by omega : max needle.length subject.length ≤ 2 * min needle.length subject.length),
              ?_⟩
            rcases Bool.or_eq_true _ _ |>.mp h3 with h4 | h4
            · exact Or.inl h4
            · exact Or.inr h4
          · simp only [h3, if_false] at h
            obtain ⟨p, hp, hrest⟩ := ih h
            exact ⟨p, List.mem_cons_of_mem _ hp, hrest⟩

/-- Email with a whitespace-only subject, used to refute C4 as stated. -/
def c4BlankSubjectEmail : Email := ⟨"e1", "a@b.com", "c@d.com", " ", "", "2026-01-01"⟩

/-- Extracted goal whose `source_subject` is the empty string. -/
def c4EmptySubjectGoal : ParsedGoal := ⟨"", none, "medium", "", "", "", [], none⟩

/-- C4 counterexample: for the goal with empty `source_subject` and the
index of a whitespace-only subject, an exact normalized match exists in the
index, yet `matchGoalToEmail` returns `null` — the claim's "returns the
exact normalized subject match whenever one exists" fails for a falsy
(empty) `source_subject`. -/
theorem claim_C4_counterexample :
    (buildEmailSubjectIndex [c4BlankSubjectEmail]).find?
        (fun q => q.1 == jsNormalize c4EmptySubjectGoal.source_subject) =
      some ("", c4BlankSubjectEmail) ∧
    matchGoalToEmail c4EmptySubjectGoal (buildEmailSubjectIndex [c4BlankSubjectEmail]) = none := by
  exact ⟨by decide, by decide⟩

/-- C4 (amended): whenever the extracted goal's `source_subject` is
non-empty, the exact normalized match is returned when one exists; with no
exact match, a needle shorter than 4 characters never matches, and any
fuzzy match comes from an index entry at least 4 characters long whose
length ratio with the needle is at least 0.5, with containment in one
direction. -/
theorem claim_C4_subject_matching (pg : ParsedGoal) (idx : List (String × Email)) :
    (∀ p, pg.source_subject ≠ "" →
        idx.find? (fun q => q.1 == jsNormalize pg.source_subject) = some p →
        matchGoalToEmail pg idx = some p.2) ∧
    (idx.find? (fun q => q.1 == jsNormalize pg.source_subject) = none →
        (jsNormalize pg.source_subject).length < 4 →
        matchGoalToEmail pg idx = none) ∧
    (∀ e, matchGoalToEmail pg idx = some e →
        idx.find? (fun q => q.1 == jsNormalize pg.source_subject) = none →
        4 ≤ (jsNormalize pg.source_subject).length ∧
        ∃ p ∈ idx, p.2 = e ∧ 4 ≤ p.1.length ∧
          max (jsNormalize pg.source_subject).length p.1.length ≤
            2 * min (jsNormalize pg.source_subject).length p.1.length ∧
          (jsIncludes p.1 (jsNormalize pg.source_subject) = true ∨
            jsIncludes (jsNormalize pg.source_subject) p.1 = true)) := by
  refine ⟨?_, ?_, ?_⟩
  · intro p hne hfind
    simp [matchGoalToEmail, hne, hfind]
  · intro hfind hlen
    by_cases hne : pg.source_subject = ""
    · simp [matchGoalToEmail, hne]
    · simp [matchGoalToEmail, hne, hfind, hlen]
  · intro e hmatch hfind
    by_cases hne : pg.source_subject = ""
    · simp [matchGoalToEmail, hne] at hmatch
    · simp only [matchGoalToEmail, hne, if_false, hfind] at hmatch
      by_cases hlen : (jsNormalize pg.source_subject).length < 4
      · simp [hlen] at hmatch
      · simp only [hlen, if_false] at hmatch
        exact ⟨by omega, fuzzyScan_ok hmatch⟩

/-- Index of the C4 witness (from the repository's own workflow tests). -/
def c4WitnessIdx : List (String × Email) :=
  buildEmailSubjectIndex
    [⟨"e1", "a@b.com", "c@d.com", "Project Alpha Update", "", "2026-01-01"⟩,
     ⟨"e2", "x@y.com", "c@d.com", "Weekly Report", "", "2026-01-02"⟩]

/-- C4 witness: the amended theorem applied concretely — an exact
case-insensitive match wins, and a 2-character needle with no exact match
yields no match. -/
theorem claim_C4_subject_matching_witness :
    (matchGoalToEmail ⟨"", none, "medium", "", "WEEKLY REPORT", "", [], none⟩ c4WitnessIdx =
      some ⟨"e2", "x@y.com", "c@d.com", "Weekly Report", "", "2026-01-02"⟩) ∧
    (matchGoalToEmail ⟨"", none, "medium", "", "We", "", [], none⟩ c4WitnessIdx = none) :=
  ⟨(claim_C4_subject_matching ⟨"", none, "medium", "", "WEEKLY REPORT", "", [], none⟩
      c4WitnessIdx).1 ("weekly report", ⟨"e2", "x@y.com", "c@d.com", "Weekly Report", "", "2026-01-02"⟩)
      (by decide) (by decide),
   (claim_C4_subject_matching ⟨"", none, "medium", "", "We", "", [], none⟩ c4WitnessIdx).2.1
      (by decide) (by decide)⟩

/-! ## Claim C8 — the processed-email-id set -/

/-- One fold step of `processedEmailIds` adds exactly the truthy source id. -/
theorem processedStep_mem (acc : List String) (g : Goal) (x : String) :
    x ∈ processedStep acc g ↔ x ∈ acc ∨ (x ≠ "" ∧ g.sourceEmailId = some x) := by
  cases hsrc : g.sourceEmailId with
  | none => simp [processedStep, hsrc]
  | some s =>
      simp only [processedStep, hsrc]
      cases hc : (decide (s ≠ "") && !acc.contains s) with
      | true =>
          rw [if_pos rfl]
          have hcond := (Bool.and_eq_true _ _).mp hc
          have hs : s ≠ "" := by simpa using hcond.1
          rw [List.mem_append]
          simp only [List.mem_singleton, Option.some.injEq]
          constructor
          · rintro (h | rfl)
            · exact Or.inl h
            · exact Or.inr ⟨hs, rfl⟩
          · rintro (h | ⟨hx, hxs⟩)
            · exact Or.inl h
            · exact Or.inr hxs.symm
      | false =>
          rw [if_neg Bool.false_ne_true]
          constructor
          · exact Or.inl
          · rintro (h | ⟨hx, hxs⟩)
            · exact h
            · simp only [Option.some.injEq] at hxs
              have hs : decide (s ≠ "") = true := by simp [hxs, hx]
              have hcontains : acc.contains s = true := by
                cases hnc : acc.contains s with
                | true => rfl
                | false => rw [hs, hnc] at hc; simp at hc
              exact hxs ▸ List.elem_iff.mp hcontains

/-- Goal carrying the empty string as `sourceEmailId` (non-null but falsy). -/
def c8EmptyIdGoal : Goal :=
  ⟨"g_1", "測試", "核心專案", none, "active", "2026-01-01", 0, [], some "", none⟩

/-- C8 counterexample: a goal whose `sourceEmailId` is the non-null empty
string is skipped by the truthiness test `if (goal.sourceEmailId)`, so the
returned set is not "exactly the set of non-null `sourceEmailId` values". -/
theorem claim_C8_counterexample :
    (∃ g ∈ [c8EmptyIdGoal], g.sourceEmailId = some "") ∧
    "" ∉ processedEmailIds [c8EmptyIdGoal] := by
  constructor
  · exact ⟨c8EmptyIdGoal, by decide, by decide⟩
  · decide

/-- C8 (amended): `getProcessedEmailIds()` contains exactly the truthy
(non-null and non-empty) `sourceEmailId` values of the current goals, and
after `deleteGoal(id)` an id remains in the set exactly when a surviving
goal carries it. -/
theorem claim_C8_processed_ids :
    (∀ (goals : List Goal) (x : String),
      x ∈ processedEmailIds goals ↔ x ≠ "" ∧ ∃ g ∈ goals, g.sourceEmailId = some x) ∧
    (∀ (s : AppState) (id x : String),
      x ∈ processedEmailIds (deleteGoalState s id).goals ↔
        x ≠ "" ∧ ∃ g ∈ s.goals, g.id ≠ id ∧ g.sourceEmailId = some x) := by
  have aux : ∀ (gs : List Goal) (acc : List String) (x : String),
      x ∈ gs.foldl processedStep acc ↔
        x ∈ acc ∨ (x ≠ "" ∧ ∃ g ∈ gs, g.sourceEmailId = some x) := by
    intro gs
    induction gs with
    | nil => simp
    | cons g rest ih =>
        intro acc x
        rw [List.foldl_cons, ih, processedStep_mem]
        constructor
        · rintro ((h | h) | ⟨hx, g', hg', hsrc⟩)
          · exact Or.inl h
          · exact Or.inr ⟨h.1, g, List.mem_cons_self g rest, h.2⟩
          · exact Or.inr ⟨hx, g', List.mem_cons_of_mem g hg', hsrc⟩
        · rintro (h | ⟨hx, g', hg', hsrc⟩)
          · exact Or.inl (Or.inl h)
          · rcases List.mem_cons.mp hg' with rfl | hg'
            · exact Or.inl (Or.inr ⟨hx, hsrc⟩)
            · exact Or.inr ⟨hx, g', hg', hsrc⟩
  have main : ∀ (goals : List Goal) (x : String),
      x ∈ processedEmailIds goals ↔ x ≠ "" ∧ ∃ g ∈ goals, g.sourceEmailId = some x := by
    intro goals x
    rw [processedEmailIds, aux]
    simp
  refine ⟨main, ?_⟩
  intro s id x
  rw [main]
  constructor
  · rintro ⟨hx, g, hg, hsrc⟩
    have := List.mem_filter.mp hg
    exact ⟨hx, g, this.1, by simpa using this.2, hsrc⟩
  · rintro ⟨hx, g, hg, hid, hsrc⟩
    exact ⟨hx, g, List.mem_filter.mpr ⟨hg, by simpa using hid⟩, hsrc⟩

/-! ## Claim C9 — import/export round trip and merge -/

/-- Migration is the identity on a freshly exported goal. -/
theorem migrateGoal_exportGoal (g : Goal) : migrateGoal (exportGoal g) = g := rfl

/-- Import payload with two goals sharing one id, used to refute C9's
merge clause. -/
def c9DupPayload : StoredState :=
  { goals := some
      [⟨"dup", "第一個目標", "核心專案", none, "active", "2026-01-01", some 0, [], some none, some none⟩,
       ⟨"dup", "第二個目標", "核心專案", none, "active", "2026-01-01", some 0, [], some none, some none⟩]
    categories := none
    currentFilter := none
    filterCategory := none
    sortBy := none }

/-- C9 counterexample: merging a valid payload that itself contains two
goals with the same id into a duplicate-free store succeeds and leaves the
goal list with a duplicated id — the merge filter only consults the
pre-import ids. -/
theorem claim_C9_counterexample :
    (getDefaultState.goals.map (fun g => g.id)).Nodup ∧
    (importState getDefaultState (some c9DupPayload) "merge").2.ok = true ∧
    ¬ ((importState getDefaultState (some c9DupPayload) "merge").1.goals.map
        (fun g => g.id)).Nodup := by
  refine ⟨by decide, by decide, by decide⟩

/-- C9 (amended): `importState(getExportData(), "overwrite")` reproduces the
goal list exactly; `merge` appends exactly the payload goals whose id is
not already present, and the result is duplicate-free provided the initial
list is and the payload's own goal ids are pairwise distinct. -/
theorem claim_C9_import_export (s : AppState) (st : StoredState) (gs : List LegacyGoal)
    (hgs : st.goals = some gs)
    (hvalid : ∀ g ∈ gs, g.id ≠ "" ∧ g.title ≠ "")
    (hs : (s.goals.map (fun g => g.id)).Nodup)
    (hp : (gs.map (fun g => g.id)).Nodup) :
    (importState s (some (exportState s)) "overwrite").1.goals = s.goals ∧
    (importState s (some st) "merge").1.goals =
      s.goals ++ (gs.map migrateGoal).filter
        (fun g => !(s.goals.map (fun x => x.id)).contains g.id) ∧
    ((importState s (some st) "merge").1.goals.map (fun g => g.id)).Nodup := by
  have hmergeGoals : (importState s (some st) "merge").1.goals =
      s.goals ++ (gs.map migrateGoal).filter
        (fun g => !(s.goals.map (fun x => x.id)).contains g.id) := by
    have hany : gs.any (fun g => g.id = "" || g.title = "") = false := by
      rw [List.any_eq_false]
      intro g hg
      have := hvalid g hg
      simp [this.1, this.2]
    simp only [importState, hgs, hany, Bool.false_eq_true, if_false]
    rw [if_neg (by decide : ¬ ("merge" = "overwrite"))]
  refine ⟨?_, hmergeGoals, ?_⟩
  · cases hany : (s.goals.map exportGoal).any (fun g => g.id = "" || g.title = "") with
    | true =>
        simp only [importState, exportState, hany, if_true]
    | false =>
        have hcomp : (migrateGoal ∘ exportGoal) = id := by
          funext g
          exact migrateGoal_exportGoal g
        simp only [importState, exportState, hany, Bool.false_eq_true, if_false, List.map_map,
          hcomp, List.map_id]
        simp
  · rw [hmergeGoals, List.map_append, List.nodup_append]
    have hmigIds : (gs.map migrateGoal).map (fun g => g.id) = gs.map (fun g => g.id) := by
      rw [List.map_map]
      rfl
    refine ⟨hs, ?_, ?_⟩
    · have hsub : List.Sublist
          (((gs.map migrateGoal).filter
            (fun g => !(s.goals.map (fun x => x.id)).contains g.id)).map (fun g => g.id))
          ((gs.map migrateGoal).map (fun g => g.id)) :=
        List.Sublist.map _ (List.filter_sublist _)
      exact (hmigIds ▸ hp).sublist hsub
    · intro a ha hb
      simp only [List.mem_map] at hb
      obtain ⟨g, hgmem, rfl⟩ := hb
      have hmf := List.mem_filter.mp hgmem
      have hnotin : g.id ∉ s.goals.map (fun x => x.id) := by simpa using hmf.2
      exact hnotin ha

/-- Goals of the C9 witness payload. -/
def c9WitnessGoals : List LegacyGoal :=
  [⟨"g_new", "匯入目標", "核心專案", none, "active", "2026-01-01", some 0, [], some none, some none⟩]

/-- Valid single-goal import payload for the C9 witness. -/
def c9WitnessPayload : StoredState :=
  { goals := some c9WitnessGoals
    categories := none
    currentFilter := none
    filterCategory := none
    sortBy := none }

/-- C9 witness: the amended theorem applied to the default state and a
concrete valid payload. -/
theorem claim_C9_import_export_witness :
    (importState getDefaultState (some (exportState getDefaultState)) "overwrite").1.goals =
      getDefaultState.goals ∧
    (importState getDefaultState (some c9WitnessPayload) "merge").1.goals =
      getDefaultState.goals ++
        (c9WitnessGoals.map migrateGoal).filter
          (fun g => !(getDefaultState.goals.map (fun x => x.id)).contains g.id) ∧
    ((importState getDefaultState (some c9WitnessPayload) "merge").1.goals.map
      (fun g => g.id)).Nodup := by
  have h := claim_C9_import_export getDefaultState c9WitnessPayload c9WitnessGoals
    rfl (by decide) (by decide) (by decide)
  exact ⟨h.1, h.2.1, h.2.2⟩

/-! ## Claim C6 — write-through persistence and the load round trip -/

/-- Store with nothing persisted yet, before any mutation. -/
def c6Store0 : Store := ⟨getDefaultState, none⟩

/-- The store after `addCategory("自訂分類")` (a successful, committed add). -/
def c6Store1 : Store := addCategoryS c6Store0 "自訂分類"

/-- C6 counterexample: `addCategory` commits the whole state, yet loading
the persisted snapshot resets `categories` to `DEFAULT_CATEGORIES`
(`loadState` spreads `{ ...saved, categories: [...DEFAULT_CATEGORIES] }`),
so the added category does not survive a persist-then-load round trip. -/
theorem claim_C6_counterexample :
    c6Store1.storage = some (exportState c6Store1.state) ∧
    "自訂分類" ∈ c6Store1.state.categories ∧
    "自訂分類" ∉ (loadState c6Store1.storage).categories := by
  refine ⟨by decide, by decide, by decide⟩

/-- Migration is the identity on an exported goal list. -/
theorem map_migrate_export (gs : List Goal) : (gs.map exportGoal).map migrateGoal = gs := by
  rw [List.map_map, (funext migrateGoal_exportGoal : migrateGoal ∘ exportGoal = id), List.map_id]

/-- C6 (amended): every mutating store operation that changes state
persists the whole `AppState` (the no-op paths of `updateGoal`,
`toggleGoalStatus`, `toggleSubtask`, `addCategory` and a failed
`importState` leave both state and storage untouched), and loading a
persisted snapshot restores the goals (migrated) and the filter/sort
settings — but always resets `categories` to the default list, so a
non-default added category does not survive the round trip. -/
theorem claim_C6_persist_load :
    (∀ (st : Store) (name : String), name ∉ st.state.categories →
      (addCategoryS st name).storage = some (exportState (addCategoryS st name).state) ∧
      name ∈ (addCategoryS st name).state.categories) ∧
    (∀ s : AppState, loadState (some (exportState s)) =
      { goals := s.goals, categories := DEFAULT_CATEGORIES,
        currentFilter := s.currentFilter, filterCategory := s.filterCategory,
        sortBy := s.sortBy }) ∧
    (∀ (st : Store) (gid : String) (sidOf : Nat → String) (today : String) (d : AddGoalData),
      (addGoalS st gid sidOf today d).storage =
        some (exportState (addGoalS st gid sidOf today d).state)) ∧
    (∀ (st : Store) (id : String),
      (deleteGoalS st id).storage = some (exportState (deleteGoalS st id).state)) ∧
    (∀ (st : Store) (v : String),
      (setFilterS st v).storage = some (exportState (setFilterS st v).state)) ∧
    (∀ (st : Store) (v : String),
      (setFilterCategoryS st v).storage = some (exportState (setFilterCategoryS st v).state)) ∧
    (∀ (st : Store) (v : String),
      (setSortByS st v).storage = some (exportState (setSortByS st v).state)) ∧
    (∀ (st : Store) (id : String) (u : GoalUpdate) (sidOf : Nat → String),
      (updateGoalS st id u sidOf).storage =
          some (exportState (updateGoalS st id u sidOf).state) ∨
        updateGoalS st id u sidOf = st) ∧
    (∀ (st : Store) (id : String),
      (toggleGoalStatusS st id).storage =
          some (exportState (toggleGoalStatusS st id).state) ∨
        toggleGoalStatusS st id = st) ∧
    (∀ (st : Store) (gid sid : String),
      (toggleSubtaskS st gid sid).storage =
          some (exportState (toggleSubtaskS st gid sid).state) ∨
        toggleSubtaskS st gid sid = st) ∧
    (∀ (st : Store) (input : Option StoredState) (mode : String),
      (importStateS st input mode).storage =
          some (exportState (importStateS st input mode).state) ∨
        importStateS st input mode = st) := by
  refine ⟨?_, ?_, ?_, ?_, ?_, ?_, ?_, ?_, ?_, ?_, ?_⟩
  · intro st name hname
    have hc : st.state.categories.contains name = false := by
      cases hc : st.state.categories.contains name with
      | true => exact absurd (List.elem_iff.mp hc) hname
      | false => rfl
    constructor
    · simp [addCategoryS, hc, commitS, hname]
    · simp [addCategoryS, addCategoryState, hc, commitS, hname]
  · intro s
    simp only [loadState, exportState, map_migrate_export]
    rfl
  · intro st gid sidOf today d
    rfl
  · intro st id
    rfl
  · intro st v
    rfl
  · intro st v
    rfl
  · intro st v
    rfl
  · intro st id u sidOf
    cases hf : st.state.goals.find? (fun g => g.id == id) with
    | none => exact Or.inr (by simp [updateGoalS, hf])
    | some g0 => exact Or.inl (by simp [updateGoalS, hf, commitS])
  · intro st id
    cases hf : st.state.goals.find? (fun g => g.id == id) with
    | none => exact Or.inr (by simp [toggleGoalStatusS, hf])
    | some g0 => exact Or.inl (by simp [toggleGoalStatusS, hf, commitS])
  · intro st gid sid
    cases hf : st.state.goals.find? (fun g => g.id == gid) with
    | none => exact Or.inr (by simp [toggleSubtaskS, hf])
    | some g0 =>
        cases hsf : g0.subtasks.find? (fun t => t.id == sid) with
        | none => exact Or.inr (by simp [toggleSubtaskS, hf, hsf])
        | some t0 => exact Or.inl (by simp [toggleSubtaskS, hf, hsf, commitS])
  · intro st input mode
    cases hok : (importState st.state input mode).2.ok with
    | false => exact Or.inr (by simp [importStateS, hok])
    | true => exact Or.inl (by simp [importStateS, hok, commitS])

/-- C6 witness: a successful `addCategory` on the default state commits the
new category set. -/
theorem claim_C6_persist_load_witness :
    ("新分類" ∉ getDefaultState.categories) ∧
    ((addCategoryS ⟨getDefaultState, none⟩ "新分類").storage =
        some (exportState (addCategoryS ⟨getDefaultState, none⟩ "新分類").state) ∧
      "新分類" ∈ (addCategoryS ⟨getDefaultState, none⟩ "新分類").state.categories) :=
  ⟨by decide, claim_C6_persist_load.1 ⟨getDefaultState, none⟩ "新分類" (by decide)⟩

/-! ## Claim C2 — progress invariant and automatic status transitions -/

/-- `progress` stays within 0–100. -/
theorem rne2_le {N D K : Nat} (hD : 0 < D) (h : N ≤ D * K) : rne2 N D ≤ K := by
  have hdm := Nat.div_add_mod N D
  have hml : N % D < D := Nat.mod_lt _ hD
  have hq : N / D ≤ K := by
    have h1 : N / D ≤ D * K / D := Nat.div_le_div_right h
    rwa [Nat.mul_div_cancel_left K hD] at h1
  have hlt : D < 2 * (N % D) ∨ ¬ 2 * (N % D) < D → N / D + 1 ≤ K := by
    intro hr
    rcases Nat.lt_or_ge (N / D) K with h1 | h1
    · omega
    · have he : N / D = K := le_antisymm hq h1
      rw [he] at hdm
      have h0 : N % D = 0 := by
        have h2 : D * K + N % D ≤ D * K + 0 := by rw [Nat.add_zero, hdm]; exact h
        have h3 := Nat.le_of_add_le_add_left h2
        omega
      omega
  unfold rne2
  split
  · exact hq
  · next hr1 =>
      split
      · next hr2 => exact hlt (Or.inl hr2)
      · split
        · exact hq
        · exact hlt (Or.inr hr1)

/-- The rounded quotient of `a ≤ b` never exceeds its scale: the double
`a / b` is at most `1`. -/
theorem fpDiv_le {a b : Nat} (h : a ≤ b) (hb : 0 < b) :
    (fpDiv a b).1 ≤ 2 ^ (fpDiv a b).2 := by
  unfold fpDiv
  split
  · simp
  · dsimp only
    exact rne2_le hb (Nat.mul_le_mul_right _ h)

/-- Multiplying a double `≤ 1` by 100 stays `≤ 100` at the result's scale. -/
theorem fpMul100_le {m k : Nat} (h : m ≤ 2 ^ k) :
    (fpMul100 (m, k)).1 ≤ 100 * 2 ^ (fpMul100 (m, k)).2 := by
  unfold fpMul100
  split
  · simp
  · dsimp only
    apply rne2_le (Nat.pos_pow_of_pos _ (by omega))
    rcases Nat.le_total (natLog2 (100 * m) - 52) k with hsk | hsk
    · have he : (2 : Nat) ^ (natLog2 (100 * m) - 52) * (100 * 2 ^ (k - (natLog2 (100 * m) - 52)))
          = 100 * 2 ^ k := by
        rw [Nat.mul_left_comm, ← pow_add, Nat.add_sub_cancel' hsk]
      rw [he]
      exact Nat.mul_le_mul_left 100 h
    · have h1 : (2 : Nat) ^ k ≤ 2 ^ (natLog2 (100 * m) - 52) :=
        Nat.pow_le_pow_right (by omega) hsk
      have h2 : k - (natLog2 (100 * m) - 52) = 0 := by omega
      rw [h2, pow_zero, Nat.mul_one]
      calc 100 * m ≤ 100 * 2 ^ k := Nat.mul_le_mul_left 100 h
        _ ≤ 100 * 2 ^ (natLog2 (100 * m) - 52) := Nat.mul_le_mul_left 100 h1
        _ = 2 ^ (natLog2 (100 * m) - 52) * 100 := Nat.mul_comm _ _

/-- `Math.round` of a nonnegative double at most `c` is at most `c`. -/
theorem roundHalfUp_le {m k c : Nat} (h : m ≤ c * 2 ^ k) : roundHalfUp (m, k) ≤ c := by
  unfold roundHalfUp
  dsimp only
  split
  · next h0 => simpa [h0] using h
  · next h0 =>
      have hpos : 0 < 2 ^ k := Nat.pos_pow_of_pos _ (by omega)
      have hsplit : (2 : Nat) ^ k = 2 ^ (k - 1) * 2 := by
        rw [← pow_succ]
        congr 1
        omega
      have hlt : m + 2 ^ (k - 1) < (c + 1) * 2 ^ k := by
        have he : (c + 1) * 2 ^ k = c * 2 ^ k + 2 ^ (k - 1) * 2 := by
          rw [Nat.succ_mul, hsplit]
        rw [he]
        have hp : 0 < 2 ^ (k - 1) := Nat.pos_pow_of_pos _ (by omega)
        set t := c * 2 ^ k with ht
        set p := 2 ^ (k - 1) with hp2
        omega
      exact Nat.lt_succ_iff.mp ((Nat.div_lt_iff_lt_mul hpos).mpr hlt)

theorem calcProgressValue_le_100 (l : List Subtask) : calcProgressValue l ≤ 100 := by
  unfold calcProgressValue
  split
  · omega
  · next hne =>
      have hd : (l.filter (fun s => s.completed)).length ≤ l.length := List.length_filter_le _ _
      have hpos : 0 < l.length := Nat.pos_of_ne_zero hne
      exact roundHalfUp_le (fpMul100_le (fpDiv_le hd hpos))

/-- Fidelity of the binary64 pipeline at the point where it diverges from
exact rational rounding: 23 of 40 completed subtasks yields 57 (JS computes
the double `57.49999999999999`), not the 58 that half-up rounding of the
exact `57.5` would give. -/
theorem calcProgressValue_23_of_40 :
    calcProgressValue (List.replicate 23 ⟨"s", "t", true⟩ ++
      List.replicate 17 ⟨"s", "t", false⟩) = 57 ∧
    (200 * 23 + 40) / (2 * 40) = 58 := by
  refine ⟨by decide, by decide⟩

/-- A list of incomplete subtasks has progress 0 (the JS computation is
exact on zero: `0 / n = 0`, `0 * 100 = 0`, `Math.round(0) = 0`). -/
theorem calcProgressValue_all_false {l : List Subtask} (h : ∀ st ∈ l, st.completed = false) :
    calcProgressValue l = 0 := by
  unfold calcProgressValue
  split
  · rfl
  · next hne =>
      have hfil : l.filter (fun s => s.completed) = [] := by
        rw [List.filter_eq_nil_iff]
        intro a ha
        simp [h a ha]
      rw [hfil]
      simp [fpDiv, fpMul100, roundHalfUp]

/-- Recomputation establishes the progress equation on its output. -/
theorem recalcGoal_progress (g : Goal) :
    (recalcGoal g).progress = calcProgressValue (recalcGoal g).subtasks := rfl

/-- Recomputation derives `status` exactly: `"completed"` iff the goal has
subtasks and its recomputed progress is 100 (else a completed goal reverts
to `"active"` and any other status is kept). -/
theorem recalcGoal_status_iff (g : Goal) :
    (recalcGoal g).status = "completed" ↔
      g.subtasks ≠ [] ∧ (recalcGoal g).progress = 100 := by
  have hle := calcProgressValue_le_100 g.subtasks
  unfold recalcGoal
  by_cases hall : (decide (g.subtasks.length > 0) && decide (calcProgressValue g.subtasks = 100)) = true
  · have h1 := (Bool.and_eq_true _ _).mp hall
    have hlen : g.subtasks.length > 0 := by simpa using h1.1
    have hp : calcProgressValue g.subtasks = 100 := by simpa using h1.2
    simp only [hall, if_true]
    constructor
    · intro _
      exact ⟨by simpa using List.length_pos.mp hlen, hp⟩
    · intro _
      trivial
  · have hnall : ¬ (g.subtasks.length > 0 ∧ calcProgressValue g.subtasks = 100) := by
      intro ⟨h1, h2⟩
      exact hall (by simp [h1, h2])
    simp only [hall, Bool.false_eq_true, if_false]
    by_cases hcomp : (decide (g.status = "completed") && decide (calcProgressValue g.subtasks < 100)) = true
    · simp only [hcomp, if_true]
      constructor
      · intro h
        exact absurd h (by decide)
      · rintro ⟨hne, hp⟩
        have := (Bool.and_eq_true _ _).mp hcomp
        have hlt : calcProgressValue g.subtasks < 100 := by simpa using this.2
        omega
    · simp only [hcomp, Bool.false_eq_true, if_false]
      constructor
      · intro h
        have hst : g.status = "completed" := h
        have : ¬ calcProgressValue g.subtasks < 100 := by
          intro hlt
          exact hcomp (by simp [hst, hlt])
        have hp : calcProgressValue g.subtasks = 100 := by omega
        rcases List.eq_nil_or_concat g.subtasks with hnil | ⟨_, _, hcons⟩
        · rw [hnil] at hp
          simp [calcProgressValue] at hp
        · have hlen : g.subtasks.length > 0 := by
            rw [hcons]
            simp
          exact absurd ⟨hlen, hp⟩ hnall
      · rintro ⟨hne, hp⟩
        have hlen : g.subtasks.length > 0 := List.length_pos.mpr hne
        exact absurd ⟨hlen, hp⟩ hnall

/-- Membership after `updateFirst`: an element is either untouched or the
image of a matched element. -/
theorem updateFirst_mem {p : α → Bool} {f : α → α} {l : List α} {x : α}
    (h : x ∈ updateFirst p f l) : x ∈ l ∨ ∃ y ∈ l, p y = true ∧ x = f y := by
  induction l with
  | nil => simp [updateFirst] at h
  | cons a as ih =>
      simp only [updateFirst] at h
      by_cases hp : p a
      · rw [if_pos hp] at h
        rcases List.mem_cons.mp h with rfl | h
        · exact Or.inr ⟨a, List.mem_cons_self a as, hp, rfl⟩
        · exact Or.inl (List.mem_cons_of_mem a h)
      · rw [if_neg hp] at h
        rcases List.mem_cons.mp h with rfl | h
        · exact Or.inl (List.mem_cons_self x as)
        · rcases ih h with h | ⟨y, hy, hpy, hxy⟩
          · exact Or.inl (List.mem_cons_of_mem a h)
          · exact Or.inr ⟨y, List.mem_cons_of_mem a hy, hpy, hxy⟩

/-- Two passes of `updateFirst` over the same predicate compose, provided
the first update preserves the predicate. -/
theorem updateFirst_updateFirst {p : α → Bool} {f g : α → α} {l : List α}
    (hf : ∀ x, p x = true → p (f x) = true) :
    updateFirst p g (updateFirst p f l) = updateFirst p (fun x => g (f x)) l := by
  induction l with
  | nil => rfl
  | cons a as ih =>
      simp only [updateFirst]
      by_cases hp : p a
      · rw [if_pos hp]
        simp only [updateFirst]
        rw [if_pos (hf a hp), if_pos hp]
      · rw [if_neg hp]
        simp only [updateFirst]
        rw [if_neg hp, if_neg hp, ih]

/-- `find?` after `updateFirst` with a predicate-preserving update maps the
original hit. -/
theorem find?_updateFirst {p : α → Bool} {f : α → α} {l : List α}
    (hf : ∀ x, p x = true → p (f x) = true) :
    (updateFirst p f l).find? p = (l.find? p).map f := by
  induction l with
  | nil => rfl
  | cons a as ih =>
      simp only [updateFirst]
      by_cases hp : p a
      · rw [if_pos hp, List.find?_cons_of_pos _ (hf a hp), List.find?_cons_of_pos _ hp]
        rfl
      · rw [if_neg hp, List.find?_cons_of_neg _ hp, List.find?_cons_of_neg _ hp, ih]

/-- The C2 invariant: every stored goal's `progress` is derived from its
subtasks by `calcProgressValue`. -/
def ProgressInv (s : AppState) : Prop :=
  ∀ g ∈ s.goals, g.progress = calcProgressValue g.subtasks

/-- `updateGoal`'s plain field assignments do not touch progress, subtasks
or the id. -/
theorem applyGoalUpdate_fields (g : Goal) (u : GoalUpdate) :
    (applyGoalUpdate g u).progress = g.progress ∧
    (applyGoalUpdate g u).subtasks = g.subtasks ∧
    (applyGoalUpdate g u).id = g.id := by
  obtain ⟨t, c, dl, sb⟩ := u
  cases t <;> cases c <;> cases dl <;> simp [applyGoalUpdate]

/-- When nothing matches, `updateFirst` is the identity. -/
theorem updateFirst_of_find?_none {p : α → Bool} {f : α → α} {l : List α}
    (h : l.find? p = none) : updateFirst p f l = l := by
  induction l with
  | nil => rfl
  | cons a as ih =>
      rw [List.find?_cons] at h
      cases hp : p a with
      | true => rw [hp] at h; cases h
      | false =>
          rw [hp] at h
          simp only [updateFirst, hp, Bool.false_eq_true, if_false]
          rw [ih h]

/-- Updating the first goal with a given id through an id-preserving
function and then running `calculateProgress` on that id restores the
progress invariant. -/
theorem inv_updateFirst_then_calc {s : AppState} (h : ProgressInv s) (gid : String)
    (f : Goal → Goal) (hid : ∀ x : Goal, (f x).id = x.id) :
    ProgressInv (calculateProgress
      { s with goals := updateFirst (fun g => g.id == gid) f s.goals } gid) := by
  have hfp : ∀ x : Goal, (x.id == gid) = true → ((f x).id == gid) = true := by
    intro x hx
    rw [hid x]
    exact hx
  unfold calculateProgress
  cases hf : s.goals.find? (fun g => g.id == gid) with
  | none =>
      have hnone : (updateFirst (fun g => g.id == gid) f s.goals).find?
          (fun g => g.id == gid) = none := by
        rw [find?_updateFirst hfp, hf]
        rfl
      simp only [hnone]
      rw [updateFirst_of_find?_none hf]
      exact h
  | some g0 =>
      have hfind : (updateFirst (fun g => g.id == gid) f s.goals).find?
          (fun g => g.id == gid) = some (f g0) := by
        rw [find?_updateFirst hfp, hf]
        rfl
      simp only [hfind]
      rw [updateFirst_updateFirst hfp]
      intro g hg
      rcases updateFirst_mem hg with hg | ⟨y, hy, _, rfl⟩
      · exact h g hg
      · exact recalcGoal_progress (f y)

/-- `addGoal` preserves the progress invariant (the fresh goal starts at
progress 0 with all subtasks incomplete). -/
theorem inv_addGoal {s : AppState} (h : ProgressInv s) (gid : String) (sidOf : Nat → String)
    (today : String) (d : AddGoalData) : ProgressInv (addGoalState s gid sidOf today d).1 := by
  intro g hg
  rcases List.mem_append.mp hg with hg | hg
  · exact h g hg
  · simp only [List.mem_singleton] at hg
    subst hg
    exact (calcProgressValue_all_false (by
      intro st hst
      simp only [List.mem_map] at hst
      obtain ⟨q, _, rfl⟩ := hst
      rfl)).symm

/-- `updateGoal` preserves the progress invariant: plain field updates do
not touch progress/subtasks, and a wholesale subtask replacement is
followed by `calculateProgress`. -/
theorem inv_updateGoal {s : AppState} (h : ProgressInv s) (id : String) (u : GoalUpdate)
    (sidOf : Nat → String) : ProgressInv (updateGoalState s id u sidOf) := by
  unfold updateGoalState
  cases hf : s.goals.find? (fun g => g.id == id) with
  | none => exact h
  | some g0 =>
      cases hsub : u.subtasks with
      | none =>
          intro g hg
          rcases updateFirst_mem hg with hg | ⟨y, hy, _, rfl⟩
          · exact h g hg
          · have ha := applyGoalUpdate_fields y u
            rw [ha.1, ha.2.1]
            exact h y hy
      | some subs =>
          exact inv_updateFirst_then_calc h id _ (fun x => (applyGoalUpdate_fields x u).2.2)

/-- `toggleGoalStatus` preserves the progress invariant (it only flips the
status string). -/
theorem inv_toggleGoalStatus {s : AppState} (h : ProgressInv s) (id : String) :
    ProgressInv (toggleGoalStatusState s id) := by
  unfold toggleGoalStatusState
  cases hf : s.goals.find? (fun g => g.id == id) with
  | none => exact h
  | some g0 =>
      intro g hg
      rcases updateFirst_mem hg with hg | ⟨y, hy, _, rfl⟩
      · exact h g hg
      · exact h y hy

/-- `toggleSubtask` preserves the progress invariant. -/
theorem inv_toggleSubtask {s : AppState} (h : ProgressInv s) (gid sid : String) :
    ProgressInv (toggleSubtaskState s gid sid) := by
  unfold toggleSubtaskState
  cases hf : s.goals.find? (fun g => g.id == gid) with
  | none => exact h
  | some g0 =>
      dsimp only
      cases hsf : g0.subtasks.find? (fun st => st.id == sid) with
      | none => exact h
      | some t0 =>
          dsimp only
          exact inv_updateFirst_then_calc h gid _ (fun x => rfl)

/-- Every state reachable through the store's mutating operations other
than `importState` satisfies the progress invariant. -/
theorem reachable_progressInv {s : AppState} (h : Reachable s) : ProgressInv s := by
  induction h with
  | init => intro g hg; simp [getDefaultState] at hg
  | step _ hstep ih =>
      cases hstep with
      | addGoal gid sidOf today d => exact inv_addGoal ih gid sidOf today d
      | updateGoal id u sidOf => exact inv_updateGoal ih id u sidOf
      | deleteGoal id =>
          intro g hg
          exact ih g (List.mem_filter.mp hg).1
      | toggleGoalStatus id => exact inv_toggleGoalStatus ih id
      | toggleSubtask gid sid => exact inv_toggleSubtask ih gid sid
      | setFilter v => exact ih
      | setFilterCategory v => exact ih
      | setSortBy v => exact ih
      | addCategory name =>
          unfold addCategoryState
          split
          · exact ih
          · exact ih

/-- Import payload whose single goal carries a numeric `progress` of 55
with no subtasks; migration keeps any numeric progress untouched. -/
def c2BadPayload : StoredState :=
  { goals := some [⟨"g_x", "不一致目標", "核心專案", none, "active", "2026-01-01",
      some 55, [], some none, some none⟩]
    categories := none
    currentFilter := none
    filterCategory := none
    sortBy := none }

/-- The store state after merging that payload into the default state. -/
def c2BadState : AppState := (importState getDefaultState (some c2BadPayload) "merge").1

/-- C2 counterexample: a state reachable through `importState` (one of the
store's mutating operations) contains a goal with `progress = 55` and no
subtasks, because `migrateGoal` recomputes progress only when it is not a
number — so the claimed invariant does not hold of every reachable state. -/
theorem claim_C2_counterexample :
    ReachableFull c2BadState ∧
    ¬ (∀ g ∈ c2BadState.goals, g.progress = calcProgressValue g.subtasks) := by
  constructor
  · exact ReachableFull.step ReachableFull.init
      (StoreStepFull.importStep getDefaultState (some c2BadPayload) "merge")
  · decide

/-- C2 (amended): in every state reachable from the default state through
the store's mutating operations other than `importState`, every goal's
progress equals `Math.round((done / n) * 100)` as JS computes it in
binary64 floating point (0 for no subtasks) — which can differ from exact
rational rounding, e.g. 23 of 40 gives 57, not 58; every recomputation
(`calculateProgress`, run by `toggleSubtask` and by `updateGoal`'s
wholesale subtask replacement, acting through `recalcGoal`) makes the
status `"completed"` exactly when the recomputed progress reaches 100 with
at least one subtask, reverting a completed goal to `"active"` below 100 —
and both operations preserve the invariant. -/
theorem claim_C2_progress_invariant (s : AppState) (h : Reachable s) :
    ProgressInv s ∧
    (∀ g : Goal, (recalcGoal g).status = "completed" ↔
      g.subtasks ≠ [] ∧ (recalcGoal g).progress = 100) ∧
    (∀ gid sid : String, ProgressInv (toggleSubtaskState s gid sid)) ∧
    (∀ (id : String) (u : GoalUpdate) (sidOf : Nat → String),
      ProgressInv (updateGoalState s id u sidOf)) := by
  have hinv := reachable_progressInv h
  exact ⟨hinv, recalcGoal_status_iff,
    fun gid sid => inv_toggleSubtask hinv gid sid,
    fun id u sidOf => inv_updateGoal hinv id u sidOf⟩

/-- `addGoal` input with forty subtasks. -/
def c2FortyAdd : AddGoalData :=
  ⟨"四十個子任務的目標", "核心專案", none,
    (List.range 40).map (fun i => "子任務" ++ toString i), none, none⟩

/-- The state after adding the forty-subtask goal. -/
def c2Base : AppState :=
  (addGoalState getDefaultState "g_1" (fun i => "s" ++ toString i) "2026-02-14" c2FortyAdd).1

/-- Ids of the first 23 subtasks, toggled to completion one by one. -/
def c2ToggleIds : List String := (List.range 23).map (fun i => "s" ++ toString i)

/-- A concrete reachable state holding a goal with 23 of 40 subtasks
completed — the input where the binary64 progress (57) differs from exact
half-up rounding (58). -/
def c2WitnessState : AppState :=
  c2ToggleIds.foldl (fun st sid => toggleSubtaskState st "g_1" sid) c2Base

/-- A fold of `toggleSubtask` steps stays reachable. -/
theorem reachable_foldl_toggles (l : List String) :
    ∀ s : AppState, Reachable s →
      Reachable (l.foldl (fun st sid => toggleSubtaskState st "g_1" sid) s) := by
  induction l with
  | nil => exact fun s h => h
  | cons a as ih =>
      intro s h
      exact ih _ (Reachable.step h (StoreStep.toggleSubtask s "g_1" a))

/-- The witness state really sits at the divergent point: its goal stores
progress 57 for 23 completed subtasks out of 40. -/
theorem c2WitnessState_progress :
    ∃ g ∈ c2WitnessState.goals, g.progress = 57 ∧ g.subtasks.length = 40 ∧
      (g.subtasks.filter (fun s => s.completed)).length = 23 := by
  decide

/-- C2 witness: the amended invariant theorem applied to a concrete state
reached by one `addGoal` and 23 `toggleSubtask` steps. -/
theorem claim_C2_progress_invariant_witness :
    ProgressInv c2WitnessState ∧
    (∀ g : Goal, (recalcGoal g).status = "completed" ↔
      g.subtasks ≠ [] ∧ (recalcGoal g).progress = 100) ∧
    (∀ gid sid : String, ProgressInv (toggleSubtaskState c2WitnessState gid sid)) ∧
    (∀ (id : String) (u : GoalUpdate) (sidOf : Nat → String),
      ProgressInv (updateGoalState c2WitnessState id u sidOf)) :=
  claim_C2_progress_invariant c2WitnessState
    (reachable_foldl_toggles c2ToggleIds c2Base
      (Reachable.step Reachable.init
        (StoreStep.addGoal getDefaultState "g_1" (fun i => "s" ++ toString i)
          "2026-02-14" c2FortyAdd)))

/-! ## Claim C10 — missing credentials abort before any I/O -/

/-- C10: when the Google Client ID or the AI API Key is unset,
`runEmailToGoal` immediately returns a non-ok result naming each missing
credential, with an empty result list and an empty call trace (no mailbox,
profile, extraction or send call). -/
theorem claim_C10_credential_check (env : WorkflowEnv) (maxEmails : Nat)
    (h : env.googleClientId = "" ∨ env.aiApiKey = "") :
    (runEmailToGoal env maxEmails).1.ok = false ∧
    (runEmailToGoal env maxEmails).1.results = [] ∧
    (runEmailToGoal env maxEmails).2 = [] ∧
    (env.googleClientId = "" →
      ∃ a b, (runEmailToGoal env maxEmails).1.message = a ++ ("Google Client ID" ++ b)) ∧
    (env.aiApiKey = "" →
      ∃ a b, (runEmailToGoal env maxEmails).1.message = a ++ ("AI API Key" ++ b)) := by
  by_cases hc : env.googleClientId = "" <;> by_cases hk : env.aiApiKey = ""
  · have hmsg : (runEmailToGoal env maxEmails).1.message =
        "請先至設定頁面填寫：" ++ String.intercalate "、" ["Google Client ID", "AI API Key"] := by
      simp [runEmailToGoal, missingCredentials, hc, hk]
    refine ⟨by simp [runEmailToGoal, missingCredentials, hc, hk],
      by simp [runEmailToGoal, missingCredentials, hc, hk],
      by simp [runEmailToGoal, missingCredentials, hc, hk], ?_, ?_⟩
    · intro _
      refine ⟨"請先至設定頁面填寫：", "、AI API Key", ?_⟩
      rw [hmsg]
      decide
    · intro _
      refine ⟨"請先至設定頁面填寫：Google Client ID、", "", ?_⟩
      rw [hmsg]
      decide
  · have hmsg : (runEmailToGoal env maxEmails).1.message =
        "請先至設定頁面填寫：" ++ String.intercalate "、" ["Google Client ID"] := by
      simp [runEmailToGoal, missingCredentials, hc, hk]
    refine ⟨by simp [runEmailToGoal, missingCredentials, hc, hk],
      by simp [runEmailToGoal, missingCredentials, hc, hk],
      by simp [runEmailToGoal, missingCredentials, hc, hk], ?_, ?_⟩
    · intro _
      refine ⟨"請先至設定頁面填寫：", "", ?_⟩
      rw [hmsg]
      decide
    · intro hk'
      exact absurd hk' hk
  · have hmsg : (runEmailToGoal env maxEmails).1.message =
        "請先至設定頁面填寫：" ++ String.intercalate "、" ["AI API Key"] := by
      simp [runEmailToGoal, missingCredentials, hc, hk]
    refine ⟨by simp [runEmailToGoal, missingCredentials, hc, hk],
      by simp [runEmailToGoal, missingCredentials, hc, hk],
      by simp [runEmailToGoal, missingCredentials, hc, hk], ?_, ?_⟩
    · intro hc'
      exact absurd hc' hc
    · intro _
      refine ⟨"請先至設定頁面填寫：", "", ?_⟩
      rw [hmsg]
      decide
  · rcases h with h | h
    · exact absurd h hc
    · exact absurd h hk

/-- Environment with both credentials unset, for the C10 witness. -/
def c10Env : WorkflowEnv :=
  { googleClientId := ""
    aiApiKey := ""
    accessToken := none
    storedGoals := []
    categories := DEFAULT_CATEGORIES
    fetchResult := .ok []
    profileResult := none
    analyzeResult := fun _ _ _ => .error "不應被呼叫"
    sendResult := .ok ⟨true, ""⟩
    addGoalResult := fun _ => .error "不應被呼叫" }

/-- C10 witness: the credential-check theorem applied to a concrete
environment missing both credentials. -/
theorem claim_C10_credential_check_witness :
    (c10Env.googleClientId = "" ∨ c10Env.aiApiKey = "") ∧
    ((runEmailToGoal c10Env 100).1.ok = false ∧
     (runEmailToGoal c10Env 100).1.results = [] ∧
     (runEmailToGoal c10Env 100).2 = [] ∧
     (c10Env.googleClientId = "" →
       ∃ a b, (runEmailToGoal c10Env 100).1.message = a ++ ("Google Client ID" ++ b)) ∧
     (c10Env.aiApiKey = "" →
       ∃ a b, (runEmailToGoal c10Env 100).1.message = a ++ ("AI API Key" ++ b))) :=
  ⟨Or.inl rfl, claim_C10_credential_check c10Env 100 (Or.inl rfl)⟩

/-! ## Workflow success-path lemmas (shared by C3, C5, C7) -/

/-- Is the event a store write? -/
def CallEvent.isWrite : CallEvent → Bool
  | .write _ => true
  | _ => false

/-- On the success path (credentials present, fetch ok, some new emails,
extraction ok) the run is the analyze-ok outcome. -/
theorem runEmailToGoal_ok_shape (env : WorkflowEnv) (maxEmails : Nat) (emails : List Email)
    (ar : AnalysisResult)
    (hc : env.googleClientId ≠ "") (hk : env.aiApiKey ≠ "")
    (hfetch : env.fetchResult = .ok emails)
    (hne : emails ≠ [])
    (hnew : newEmailsOf env emails ≠ [])
    (hana : env.analyzeResult (formatEmailsForPrompt (newEmailsOf env emails))
      (userDisplay (resolveUserEmail env (newEmailsOf env emails))) env.categories = .ok ar) :
    runEmailToGoal env maxEmails = analyzeOkOutcome env maxEmails emails (newEmailsOf env emails) ar := by
  have h1 : ¬ (emails.length = 0) := by
    simpa [List.length_eq_zero] using hne
  have h2 : ¬ ((newEmailsOf env emails).length = 0) := by
    simpa [List.length_eq_zero] using hnew
  simp only [runEmailToGoal, missingCredentials, hc, hk, if_neg, List.append_nil,
    List.isEmpty_nil, Bool.not_true, hfetch]
  simp only [runWithEmails, h1, if_false, h2, hana]
  rfl

/-- The call event of one write-loop iteration is the store write of the
assembled input. -/
theorem processGoal_snd (env : WorkflowEnv) (si m : List (String × Email)) (pg : ParsedGoal) :
    (processGoal env si m pg).2 = CallEvent.write (goalWriteInput si m pg) := by
  dsimp only [processGoal]
  cases env.addGoalResult (goalWriteInput si m pg) <;> rfl

/-- The per-goal result mirrors the write outcome. -/
theorem processGoal_success (env : WorkflowEnv) (si m : List (String × Email)) (pg : ParsedGoal) :
    (processGoal env si m pg).1.success = (env.addGoalResult (goalWriteInput si m pg)).isOk := by
  dsimp only [processGoal]
  cases env.addGoalResult (goalWriteInput si m pg) <;> rfl

/-- A failed write is recorded with its error message. -/
theorem processGoal_fail (env : WorkflowEnv) (si m : List (String × Email)) (pg : ParsedGoal)
    (h : (processGoal env si m pg).1.success = false) :
    (processGoal env si m pg).1.error.isSome = true := by
  dsimp only [processGoal] at h ⊢
  cases hres : env.addGoalResult (goalWriteInput si m pg) with
  | ok gid => rw [hres] at h; simp at h
  | error e => rfl

/-- The notification stage performs at most one send call and never a
write. -/
theorem sendStage_events (env : WorkflowEnv) (u : Option String) :
    (sendStage env u).2 = [] ∨ ∃ r, (sendStage env u).2 = [CallEvent.send r] := by
  dsimp only [sendStage]
  split
  · cases env.sendResult with
    | ok r => exact Or.inr ⟨_, rfl⟩
    | error e => exact Or.inr ⟨_, rfl⟩
  · split
    · exact Or.inl rfl
    · exact Or.inl rfl

/-- The `ok` flag (`failCount === 0`) is true exactly when every per-goal
result is a success. -/
theorem ok_iff_all_success (L : List GoalResult) :
    ((L.length - (L.filter (fun r => r.success)).length == 0) = true) ↔
      ∀ res ∈ L, res.success = true := by
  have hle : (L.filter (fun r => r.success)).length ≤ L.length := List.length_filter_le _ _
  rw [beq_iff_eq]
  constructor
  · intro h0
    have heq : (L.filter (fun r => r.success)).length = L.length := by omega
    exact filter_length_eq_iff.mp heq
  · intro hall
    have heq := (@filter_length_eq_iff GoalResult (fun r => r.success) L).mpr hall
    omega

/-! ## Claim C5 — per-goal write failures -/

/-- C5 (amended): when fetch and extraction succeed, every extracted goal
gets its own independent store-write attempt (one write event each — a
failure does not abort the remaining writes), each per-goal result mirrors
its write outcome and records the error message on failure, and the final
`ok` flag is true exactly when every per-goal write succeeded — the
notification outcome never affects it. (The claim's "still has ok = true"
under a write failure is refuted by the counterexample.) -/
theorem claim_C5_partial_failures (env : WorkflowEnv) (maxEmails : Nat) (emails : List Email)
    (ar : AnalysisResult)
    (hc : env.googleClientId ≠ "") (hk : env.aiApiKey ≠ "")
    (hfetch : env.fetchResult = .ok emails)
    (hne : emails ≠ [])
    (hnew : newEmailsOf env emails ≠ [])
    (hana : env.analyzeResult (formatEmailsForPrompt (newEmailsOf env emails))
      (userDisplay (resolveUserEmail env (newEmailsOf env emails))) env.categories = .ok ar) :
    ((runEmailToGoal env maxEmails).1.results.map (fun r => r.success) =
      ar.goals.map (fun pg => (env.addGoalResult (goalWriteInput
        (buildEmailSubjectIndex (newEmailsOf env emails))
        (emailIdMapOf (newEmailsOf env emails)) pg)).isOk)) ∧
    (∀ res ∈ (runEmailToGoal env maxEmails).1.results,
      res.success = false → res.error.isSome = true) ∧
    ((runEmailToGoal env maxEmails).2.filter CallEvent.isWrite).length = ar.goals.length ∧
    ((runEmailToGoal env maxEmails).1.ok = true ↔
      ∀ res ∈ (runEmailToGoal env maxEmails).1.results, res.success = true) := by
  rw [runEmailToGoal_ok_shape env maxEmails emails ar hc hk hfetch hne hnew hana]
  dsimp only [analyzeOkOutcome]
  refine ⟨?_, ?_, ?_, ?_⟩
  · rw [List.map_map, List.map_map]
    congr 1
    funext pg
    exact processGoal_success env _ _ pg
  · intro res hres hfail
    simp only [List.map_map, List.mem_map] at hres
    obtain ⟨pg, _, rfl⟩ := hres
    exact processGoal_fail env _ _ pg hfail
  · rw [List.filter_append, List.filter_append]
    have hpre : (analyzeCallOf env maxEmails (newEmailsOf env emails)).filter CallEvent.isWrite = [] := by
      simp [analyzeCallOf, CallEvent.isWrite]
    have hwrites : ((ar.goals.map (processGoal env (buildEmailSubjectIndex (newEmailsOf env emails))
        (emailIdMapOf (newEmailsOf env emails)))).map (fun p => p.2)).filter CallEvent.isWrite =
        (ar.goals.map (processGoal env (buildEmailSubjectIndex (newEmailsOf env emails))
        (emailIdMapOf (newEmailsOf env emails)))).map (fun p => p.2) := by
      rw [List.filter_eq_self]
      intro ev hev
      simp only [List.map_map, List.mem_map] at hev
      obtain ⟨pg, _, rfl⟩ := hev
      show CallEvent.isWrite ((processGoal env _ _ pg).2) = true
      rw [processGoal_snd]
      rfl
    have hsend : ((sendStage env (resolveUserEmail env (newEmailsOf env emails))).2).filter
        CallEvent.isWrite = [] := by
      rcases sendStage_events env (resolveUserEmail env (newEmailsOf env emails)) with h | ⟨r, h⟩
      · rw [h]
        rfl
      · rw [h]
        rfl
    rw [hpre, hwrites, hsend]
    simp
  · exact ok_iff_all_success _

/-- Fetched email of the C5 scenario. -/
def c5Email : Email :=
  ⟨"m9", "boss@corp.com", "user@corp.com", "Quarterly Report", "請完成季度報告", "2026-02-10"⟩

/-- First extracted goal (its write will fail). -/
def c5Goal1 : ParsedGoal :=
  ⟨"完成A", some "核心專案", "high", "m9", "Quarterly Report", "boss@corp.com", [], none⟩

/-- Second extracted goal (its write succeeds). -/
def c5Goal2 : ParsedGoal :=
  ⟨"完成B", some "核心專案", "medium", "m9", "Quarterly Report", "boss@corp.com", [], none⟩

/-- Environment where fetch and extraction succeed but the first of two
goal writes throws. -/
def c5Env : WorkflowEnv :=
  { googleClientId := "cid"
    aiApiKey := "key"
    accessToken := none
    storedGoals := []
    categories := DEFAULT_CATEGORIES
    fetchResult := .ok [c5Email]
    profileResult := some "user@corp.com"
    analyzeResult := fun _ _ _ => .ok ⟨.num 1, [c5Goal1, c5Goal2]⟩
    sendResult := .ok ⟨true, ""⟩
    addGoalResult := fun d => if d.title = "完成A" then .error "寫入失敗" else .ok "g_ok" }

/-- C5 counterexample: fetch and extraction succeed, the first goal write
fails and is recorded while the second write still happens — but the
returned `WorkflowResult` has `ok = false` (`ok: failCount === 0`), not
`ok = true` as the claim states. -/
theorem claim_C5_counterexample :
    (runEmailToGoal c5Env 100).1.results.map (fun r => r.success) = [false, true] ∧
    ((runEmailToGoal c5Env 100).2.filter CallEvent.isWrite).length = 2 ∧
    (runEmailToGoal c5Env 100).1.ok = false := by
  refine ⟨by decide, by decide, by decide⟩

/-- The extraction result of the C5 witness scenario. -/
def c5wAr : AnalysisResult := ⟨.num 1, [c5Goal1, c5Goal2]⟩

/-- Environment where both writes succeed and the notification send fails
— `ok` stays true. -/
def c5wEnv : WorkflowEnv :=
  { googleClientId := "cid"
    aiApiKey := "key"
    accessToken := some "tok"
    storedGoals := []
    categories := DEFAULT_CATEGORIES
    fetchResult := .ok [c5Email]
    profileResult := some "user@corp.com"
    analyzeResult := fun _ _ _ => .ok c5wAr
    sendResult := .ok ⟨false, "SMTP 錯誤"⟩
    addGoalResult := fun _ => .ok "g_1" }

/-- C5 witness: the amended theorem applied to the concrete
send-fails-but-writes-succeed environment. -/
theorem claim_C5_partial_failures_witness :
    ((runEmailToGoal c5wEnv 100).1.results.map (fun r => r.success) =
      c5wAr.goals.map (fun pg => (c5wEnv.addGoalResult (goalWriteInput
        (buildEmailSubjectIndex (newEmailsOf c5wEnv [c5Email]))
        (emailIdMapOf (newEmailsOf c5wEnv [c5Email])) pg)).isOk)) ∧
    (∀ res ∈ (runEmailToGoal c5wEnv 100).1.results,
      res.success = false → res.error.isSome = true) ∧
    ((runEmailToGoal c5wEnv 100).2.filter CallEvent.isWrite).length = c5wAr.goals.length ∧
    ((runEmailToGoal c5wEnv 100).1.ok = true ↔
      ∀ res ∈ (runEmailToGoal c5wEnv 100).1.results, res.success = true) :=
  claim_C5_partial_failures c5wEnv 100 [c5Email] c5wAr
    (by decide) (by decide) rfl (by decide) (by decide) rfl

/-! ## Claim C3 — dedup against the processed-id set -/

/-- With credentials present and a successful fetch, the run proceeds to
the post-fetch stages. -/
theorem runEmailToGoal_fetch_ok (env : WorkflowEnv) (maxEmails : Nat) (emails : List Email)
    (hc : env.googleClientId ≠ "") (hk : env.aiApiKey ≠ "")
    (hfetch : env.fetchResult = .ok emails) :
    runEmailToGoal env maxEmails = runWithEmails env maxEmails emails := by
  simp only [runEmailToGoal, missingCredentials, hc, hk, if_neg, List.append_nil,
    List.isEmpty_nil, Bool.not_true, hfetch]
  rfl

/-- C3: (1) with a stored goal for `m1` and a fetch returning `[m1, m2]`,
exactly one extraction call happens and it receives only `m2`'s formatted
content, and the final message reports exactly one skipped duplicate;
(2) whenever dedup removes every fetched email, the run returns ok with the
informational message, an empty result list, and no extraction call. -/
theorem claim_C3_dedup :
    (∀ (env : WorkflowEnv) (maxEmails : Nat) (e1 e2 : Email) (ar : AnalysisResult),
      env.googleClientId ≠ "" → env.aiApiKey ≠ "" →
      env.fetchResult = .ok [e1, e2] →
      e1.id = "m1" → e2.id = "m2" →
      "m1" ∈ processedEmailIds env.storedGoals →
      "m2" ∉ processedEmailIds env.storedGoals →
      env.analyzeResult (formatEmailsForPrompt [e2])
        (userDisplay (resolveUserEmail env [e2])) env.categories = .ok ar →
      ((runEmailToGoal env maxEmails).2.filter CallEvent.isAnalyze =
        [CallEvent.analyze (formatEmailsForPrompt [e2])
          (userDisplay (resolveUserEmail env [e2])) env.categories]) ∧
      (∃ a b, (runEmailToGoal env maxEmails).1.message =
        a ++ ("（另有 1 封已處理過，已跳過）" ++ b))) ∧
    (∀ (env : WorkflowEnv) (maxEmails : Nat) (emails : List Email),
      env.googleClientId ≠ "" → env.aiApiKey ≠ "" →
      env.fetchResult = .ok emails → emails ≠ [] →
      (∀ e ∈ emails, e.id ∈ processedEmailIds env.storedGoals) →
      (runEmailToGoal env maxEmails).1.ok = true ∧
      (runEmailToGoal env maxEmails).1.message =
        "過去 24 小時的 " ++ toString emails.length ++ " 封信件皆已處理過，無需重複分析" ∧
      (runEmailToGoal env maxEmails).1.results = [] ∧
      (runEmailToGoal env maxEmails).2.filter CallEvent.isAnalyze = []) := by
  constructor
  · intro env maxEmails e1 e2 ar hc hk hfetch h1 h2 hm1 hm2 hana
    have hnew : newEmailsOf env [e1, e2] = [e2] := by
      have hd1 : decide (e1.id ∈ processedEmailIds env.storedGoals) = true := by
        rw [h1]
        exact decide_eq_true hm1
      have hd2 : decide (e2.id ∈ processedEmailIds env.storedGoals) = false := by
        rw [h2]
        exact decide_eq_false hm2
      simp [newEmailsOf, List.filter, hd1, hd2]
    have hrun := runEmailToGoal_ok_shape env maxEmails [e1, e2] ar hc hk hfetch
      (by simp) (by rw [hnew]; simp) (by rw [hnew]; exact hana)
    rw [hrun, hnew]
    dsimp only [analyzeOkOutcome]
    constructor
    · rw [List.filter_append, List.filter_append]
      have hpre : (analyzeCallOf env maxEmails [e2]).filter CallEvent.isAnalyze =
          [CallEvent.analyze (formatEmailsForPrompt [e2])
            (userDisplay (resolveUserEmail env [e2])) env.categories] := rfl
      have hw : ((ar.goals.map (processGoal env (buildEmailSubjectIndex [e2])
          (emailIdMapOf [e2]))).map (fun p => p.2)).filter CallEvent.isAnalyze = [] := by
        rw [List.filter_eq_nil_iff]
        intro ev hev
        simp only [List.map_map, List.mem_map] at hev
        obtain ⟨pg, _, rfl⟩ := hev
        show ¬ CallEvent.isAnalyze ((processGoal env _ _ pg).2) = true
        rw [processGoal_snd]
        simp [CallEvent.isAnalyze]
      have hs : ((sendStage env (resolveUserEmail env [e2])).2).filter CallEvent.isAnalyze = [] := by
        rcases sendStage_events env (resolveUserEmail env [e2]) with h | ⟨r, h⟩
        · rw [h]
          rfl
        · rw [h]
          rfl
      rw [hpre, hw, hs]
      simp
    · have hskip : (([e1, e2] : List Email).length - ([e2] : List Email).length) = 1 := rfl
      rw [hskip]
      dsimp only [composeMessage]
      have hphrase : (if (1 : Nat) > 0 then
          "（另有 " ++ toString (1 : Nat) ++ " 封已處理過，已跳過）" else "") =
          "（另有 1 封已處理過，已跳過）" := by decide
      rw [hphrase]
      exact ⟨_, _, String.append_assoc _ _ _⟩
  · intro env maxEmails emails hc hk hfetch hne hall
    rw [runEmailToGoal_fetch_ok env maxEmails emails hc hk hfetch]
    have h1 : ¬ (emails.length = 0) := by
      simpa [List.length_eq_zero] using hne
    have hnew0 : newEmailsOf env emails = [] := by
      unfold newEmailsOf
      rw [List.filter_eq_nil_iff]
      intro e he
      have hcc : (processedEmailIds env.storedGoals).contains e.id = true :=
        List.elem_iff.mpr (hall e he)
      rw [hcc]
      decide
    simp only [runWithEmails, h1, if_false, hnew0, List.length_nil, if_true]
    refine ⟨?_, ?_, ?_, ?_⟩ <;> trivial

/-- Stored goal that already consumed message `m1`. -/
def c3Stored : Goal :=
  ⟨"g_old", "舊目標", "核心專案", none, "active", "2026-01-01", 0, [], some "m1", none⟩

/-- The already-processed fetched email. -/
def c3E1 : Email := ⟨"m1", "a@x.com", "user@x.com", "Old Subject", "舊內容", "2026-02-09"⟩

/-- The fresh fetched email. -/
def c3E2 : Email := ⟨"m2", "b@x.com", "user@x.com", "New Subject", "新內容", "2026-02-10"⟩

/-- Extraction result of the C3 witness run (no goals extracted). -/
def c3Ar : AnalysisResult := ⟨.num 1, []⟩

/-- Environment of the C3 dedup scenario. -/
def c3Env : WorkflowEnv :=
  { googleClientId := "cid"
    aiApiKey := "key"
    accessToken := none
    storedGoals := [c3Stored]
    categories := DEFAULT_CATEGORIES
    fetchResult := .ok [c3E1, c3E2]
    profileResult := some "user@x.com"
    analyzeResult := fun _ _ _ => .ok c3Ar
    sendResult := .ok ⟨true, ""⟩
    addGoalResult := fun _ => .ok "g_new" }

/-- Environment where every fetched email was already processed. -/
def c3Env2 : WorkflowEnv :=
  { googleClientId := "cid"
    aiApiKey := "key"
    accessToken := none
    storedGoals := [c3Stored]
    categories := DEFAULT_CATEGORIES
    fetchResult := .ok [c3E1]
    profileResult := some "user@x.com"
    analyzeResult := fun _ _ _ => .ok c3Ar
    sendResult := .ok ⟨true, ""⟩
    addGoalResult := fun _ => .ok "g_new" }

/-- C3 witness: both scenario parts applied to concrete environments. -/
theorem claim_C3_dedup_witness :
    (((runEmailToGoal c3Env 100).2.filter CallEvent.isAnalyze =
        [CallEvent.analyze (formatEmailsForPrompt [c3E2])
          (userDisplay (resolveUserEmail c3Env [c3E2])) c3Env.categories]) ∧
      (∃ a b, (runEmailToGoal c3Env 100).1.message =
        a ++ ("（另有 1 封已處理過，已跳過）" ++ b))) ∧
    ((runEmailToGoal c3Env2 100).1.ok = true ∧
      (runEmailToGoal c3Env2 100).1.message =
        "過去 24 小時的 " ++ toString ([c3E1] : List Email).length ++
          " 封信件皆已處理過，無需重複分析" ∧
      (runEmailToGoal c3Env2 100).1.results = [] ∧
      (runEmailToGoal c3Env2 100).2.filter CallEvent.isAnalyze = []) :=
  ⟨claim_C3_dedup.1 c3Env 100 c3E1 c3E2 c3Ar (by decide) (by decide) rfl rfl rfl
      (by decide) (by decide) rfl,
   claim_C3_dedup.2 c3Env2 100 [c3E1] (by decide) (by decide) rfl (by decide) (by decide)⟩

/-! ## Claim C7 — goal categories versus the category set -/

/-- Goal data whose category is not in the default category set. -/
def c7BadData : AddGoalData := ⟨"測試目標", "神秘分類", none, [], none, none⟩

/-- Store state reached by one `addGoal` with a rogue category. -/
def c7BadState : AppState :=
  (addGoalState getDefaultState "g_1" (fun _ => "s_1") "2026-02-14" c7BadData).1

/-- C7 counterexample: `addGoal` performs no category validation, so a
reachable store state contains a goal whose category is not in the current
category set. -/
theorem claim_C7_counterexample :
    Reachable c7BadState ∧ ∃ g ∈ c7BadState.goals, g.category ∉ c7BadState.categories := by
  constructor
  · exact Reachable.step Reachable.init
      (StoreStep.addGoal getDefaultState "g_1" (fun _ => "s_1") "2026-02-14" c7BadData)
  · exact ⟨(addGoalState getDefaultState "g_1" (fun _ => "s_1") "2026-02-14" c7BadData).2,
      by decide, by decide⟩

/-- C7 (amended): the store itself does not enforce category membership,
but the workflow's writes of extracted goals do stay inside the category
set: when the extraction result was validated by `parseAIResponse` against
the current (non-empty, all-non-empty-names) category whitelist, every
store write performed by `runEmailToGoal` carries a category from that
whitelist. -/
theorem claim_C7_workflow_category (env : WorkflowEnv) (maxEmails : Nat)
    (emails : List Email) (parsed : JsonValue) (ar : AnalysisResult)
    (hcats : env.categories ≠ []) (hcats' : ∀ c ∈ env.categories, c ≠ "")
    (hr : parseAIResponse parsed env.categories = .ok ar)
    (hc : env.googleClientId ≠ "") (hk : env.aiApiKey ≠ "")
    (hfetch : env.fetchResult = .ok emails)
    (hne : emails ≠ [])
    (hnew : newEmailsOf env emails ≠ [])
    (hana : env.analyzeResult (formatEmailsForPrompt (newEmailsOf env emails))
      (userDisplay (resolveUserEmail env (newEmailsOf env emails))) env.categories = .ok ar) :
    ∀ ev ∈ (runEmailToGoal env maxEmails).2, ∀ inp,
      ev = CallEvent.write inp → inp.category ∈ env.categories := by
  rw [runEmailToGoal_ok_shape env maxEmails emails ar hc hk hfetch hne hnew hana]
  dsimp only [analyzeOkOutcome]
  intro ev hev inp hevw
  rcases List.mem_append.mp hev with hev | hev
  · rcases List.mem_append.mp hev with hev | hev
    · simp only [analyzeCallOf, List.mem_cons, List.not_mem_nil, or_false] at hev
      rcases hev with rfl | rfl | rfl <;> simp at hevw
    · simp only [List.map_map, List.mem_map] at hev
      obtain ⟨pg, hpg, rfl⟩ := hev
      rw [Function.comp_apply, processGoal_snd] at hevw
      have hinp : inp = goalWriteInput (buildEmailSubjectIndex (newEmailsOf env emails))
          (emailIdMapOf (newEmailsOf env emails)) pg := by
        injection hevw.symm
      subst hinp
      obtain ⟨g, hg⟩ := (parseAIResponse_ok hr).2 pg hpg
      obtain ⟨c, hpc, hcm⟩ := (validateGoal_ok_bounds hg).2.1 hcats
      have hcne : c ≠ "" := hcats' c hcm
      show (goalWriteInput _ _ pg).category ∈ env.categories
      dsimp only [goalWriteInput]
      rw [hpc]
      show (if c = "" then "學習" else c) ∈ env.categories
      rw [if_neg hcne]
      exact hcm
  · rcases sendStage_events env (resolveUserEmail env (newEmailsOf env emails)) with h | ⟨r, h⟩
    · rw [h] at hev
      simp at hev
    · rw [h] at hev
      simp only [List.mem_singleton] at hev
      subst hev
      simp at hevw

/-- Fresh email of the C7 witness run. -/
def c7Email : Email := ⟨"m2", "client@x.com", "user@x.com", "合作提案", "請回覆提案", "2026-02-10"⟩

/-- Model response of the C7 witness run. -/
def c7Parsed : JsonValue :=
  .obj [("analysis_summary", .num 1),
        ("goals", .arr [.obj [("title", .str "回覆客戶郵件"),
                              ("category", .str "外部協作"),
                              ("priority", .str "high"),
                              ("source_email_id", .str "m2")]])]

/-- Validated extraction result of the C7 witness run. -/
def c7Ar : AnalysisResult :=
  ⟨.num 1, [⟨"回覆客戶郵件", some "外部協作", "high", "m2", "", "", [], none⟩]⟩

/-- Environment of the C7 witness run. -/
def c7Env : WorkflowEnv :=
  { googleClientId := "cid"
    aiApiKey := "key"
    accessToken := none
    storedGoals := []
    categories := DEFAULT_CATEGORIES
    fetchResult := .ok [c7Email]
    profileResult := some "user@x.com"
    analyzeResult := fun _ _ _ => .ok c7Ar
    sendResult := .ok ⟨true, ""⟩
    addGoalResult := fun _ => .ok "g_new" }

/-- Store-write input produced by the C7 witness run. -/
def c7WriteInput : AddGoalData :=
  goalWriteInput (buildEmailSubjectIndex (newEmailsOf c7Env [c7Email]))
    (emailIdMapOf (newEmailsOf c7Env [c7Email]))
    ⟨"回覆客戶郵件", some "外部協作", "high", "m2", "", "", [], none⟩

/-- C7 witness: the amended theorem applied to the concrete write event of a
concrete validated run. -/
theorem claim_C7_workflow_category_witness :
    CallEvent.write c7WriteInput ∈ (runEmailToGoal c7Env 100).2 ∧
    c7WriteInput.category ∈ c7Env.categories :=
  ⟨by decide,
   claim_C7_workflow_category c7Env 100 [c7Email] c7Parsed c7Ar
     (by decide) (by decide) rfl (by decide) (by decide) rfl (by decide) (by decide) rfl
     (CallEvent.write c7WriteInput) (by decide) c7WriteInput rfl⟩

end GoalTracker
